import Mathlib

/-!
Verification of the streaming-response parser of the Looker Studio chatbot
(source: src/chatbot_script.py).

The development shallowly embeds:
  - the Python json.loads parser (as jsonLoads, used by the helper is_json),
  - the helper functions get_property, format_bq_table_ref,
    format_looker_table_ref, parse_schema_to_dataframe,
    parse_data_to_dataframe,
  - the generator stream_chat_response (frame reassembly, per-object
    dispatch, error handling, chart/data correlation), and
  - the driver loop of the Streamlit UI that splits the generator output
    into display chunks and API context messages.

Machine-level caveats of the embedding, chosen so that no claim below
depends on them:
  - JSON numbers are kept as their source lexeme (a string); Python's
    normalisation of float reprs is modelled only for integer lexemes and
    the NaN/Infinity constants, the only forms exercised here.
  - A unicode escape decodes with Char.ofNat, without surrogate pairing.
  - The English text of Python TypeError/AttributeError messages is
    approximated; KeyError rendering (quoted key) is exact.
-/

/-- A parsed JSON value, as produced by Python's json.loads. Object members
are kept in insertion order with last-wins duplicate handling, matching
CPython's dict construction; number values keep their source lexeme. -/
inductive Json where
  | null
  | bool (b : Bool)
  | num (lex : String)
  | str (s : String)
  | arr (elems : List Json)
  | obj (members : List (String × Json))
deriving Repr

/-- JSON whitespace accepted by Python's json module. -/
def isJsonWs (c : Char) : Bool :=
  c = ' ' || c = '\t' || c = '\n' || c = '\r'

/-- Drop leading JSON whitespace. -/
def skipWs : List Char → List Char
  | [] => []
  | c :: cs => if isJsonWs c then skipWs cs else c :: cs

/-- Value of one hex digit. -/
def hexVal (c : Char) : Option Nat :=
  if '0' ≤ c ∧ c ≤ '9' then some (c.toNat - '0'.toNat)
  else if 'a' ≤ c ∧ c ≤ 'f' then some (c.toNat - 'a'.toNat + 10)
  else if 'A' ≤ c ∧ c ≤ 'F' then some (c.toNat - 'A'.toNat + 10)
  else none

/-- Single-character JSON string escapes. -/
def escChar (c : Char) : Option Char :=
  if c = '"' then some '"'
  else if c = '\\' then some '\\'
  else if c = '/' then some '/'
  else if c = 'b' then some '\x08'
  else if c = 'f' then some '\x0c'
  else if c = 'n' then some '\n'
  else if c = 'r' then some '\r'
  else if c = 't' then some '\t'
  else none

/-- Scan the body of a JSON string (the opening quote already consumed),
returning the decoded string and the remaining input. Unescaped control
characters are rejected, as in Python's strict mode. -/
def scanStr : List Char → String → Option (String × List Char)
  | [], _ => none
  | '"' :: cs, out => some (out, cs)
  | '\\' :: [], _ => none
  | '\\' :: e :: cs, out =>
    if e = 'u' then
      match cs with
      | a :: b :: c :: d :: cs2 =>
        match hexVal a, hexVal b, hexVal c, hexVal d with
        | some va, some vb, some vc, some vd =>
          scanStr cs2 (out.push (Char.ofNat (((va * 16 + vb) * 16 + vc) * 16 + vd)))
        | _, _, _, _ => none
      | _ => none
    else
      match escChar e with
      | some ec => scanStr cs (out.push ec)
      | none => none
  | c :: cs, out =>
    if c.toNat < 32 then none else scanStr cs (out.push c)

/-- Take a maximal run of decimal digits. -/
def takeDigits : List Char → List Char × List Char
  | [] => ([], [])
  | c :: cs =>
    if c.isDigit then
      let p := takeDigits cs
      (c :: p.1, p.2)
    else ([], c :: cs)

/-- Optional fractional part of a JSON number: a dot followed by at least
one digit, else nothing is consumed. -/
def numFrac : List Char → List Char × List Char
  | '.' :: c :: r =>
    if c.isDigit then
      let p := takeDigits (c :: r)
      ('.' :: p.1, p.2)
    else ([], '.' :: c :: r)
  | cs => ([], cs)

/-- Optional exponent part of a JSON number: e or E, an optional sign, and
at least one digit, else nothing is consumed. -/
def numExp : List Char → List Char × List Char
  | e :: rest =>
    if e = 'e' ∨ e = 'E' then
      match rest with
      | s :: r2 =>
        if s = '+' ∨ s = '-' then
          match r2 with
          | d :: r3 =>
            if d.isDigit then
              let p := takeDigits (d :: r3)
              (e :: s :: p.1, p.2)
            else ([], e :: rest)
          | [] => ([], e :: rest)
        else if s.isDigit then
          let p := takeDigits (s :: r2)
          (e :: p.1, p.2)
        else ([], e :: rest)
      | [] => ([], e :: rest)
    else ([], e :: rest)
  | [] => ([], [])

/-- Scan a JSON number after the optional minus sign: an integer part
with no leading zeros, then optional fraction and exponent. -/
def scanNumTail (sgn : List Char) : List Char → Option (String × List Char)
  | [] => none
  | c :: r =>
    if c = '0' then
      let f := numFrac r
      let e := numExp f.2
      some (String.mk (sgn ++ ['0'] ++ f.1 ++ e.1), e.2)
    else if c.isDigit then
      let d := takeDigits (c :: r)
      let f := numFrac d.2
      let e := numExp f.2
      some (String.mk (sgn ++ d.1 ++ f.1 ++ e.1), e.2)
    else none

/-- Scan a JSON number lexeme following the NUMBER_RE regex of the Python
json module: an optional minus, an integer part with no leading zeros,
then optional fraction and exponent. Returns the lexeme and the
remaining input. -/
def scanNumber (cs : List Char) : Option (String × List Char) :=
  match cs with
  | '-' :: r => scanNumTail ['-'] r
  | _ => scanNumTail [] cs

/-- Insert a key/value pair with CPython dict semantics: an existing key
keeps its position and gets the new value, a new key is appended. -/
def objInsert : List (String × Json) → String → Json → List (String × Json)
  | [], k, v => [(k, v)]
  | (k1, v1) :: rest, k, v =>
    if k1 = k then (k1, v) :: rest else (k1, v1) :: objInsert rest k v

mutual

/-- Parse one JSON value at the head of the input (no leading whitespace),
fuel-indexed for structural termination. -/
def parseVal : Nat → List Char → Option (Json × List Char)
  | 0, _ => none
  | fuel + 1, cs =>
    match cs with
    | [] => none
    | c :: rest =>
      if c = '\x7b' then
        match skipWs rest with
        | [] => none
        | d :: r2 =>
          if d = '\x7d' then some (.obj [], r2)
          else
            match parseMembers fuel (d :: r2) [] with
            | some (m, r3) => some (.obj m, r3)
            | none => none
      else if c = '[' then
        match skipWs rest with
        | [] => none
        | d :: r2 =>
          if d = ']' then some (.arr [], r2)
          else
            match parseElems fuel (d :: r2) [] with
            | some (l, r3) => some (.arr l, r3)
            | none => none
      else if c = '"' then
        match scanStr rest "" with
        | some (s, r) => some (.str s, r)
        | none => none
      else if c = 't' then
        match rest with
        | c1 :: c2 :: c3 :: r =>
          if c1 = 'r' ∧ c2 = 'u' ∧ c3 = 'e' then some (.bool true, r) else none
        | _ => none
      else if c = 'f' then
        match rest with
        | c1 :: c2 :: c3 :: c4 :: r =>
          if c1 = 'a' ∧ c2 = 'l' ∧ c3 = 's' ∧ c4 = 'e' then some (.bool false, r)
          else none
        | _ => none
      else if c = 'n' then
        match rest with
        | c1 :: c2 :: c3 :: r =>
          if c1 = 'u' ∧ c2 = 'l' ∧ c3 = 'l' then some (.null, r) else none
        | _ => none
      else if c = 'N' then
        match rest with
        | c1 :: c2 :: r => if c1 = 'a' ∧ c2 = 'N' then some (.num "NaN", r) else none
        | _ => none
      else if c = 'I' then
        match rest with
        | c1 :: c2 :: c3 :: c4 :: c5 :: c6 :: c7 :: r =>
          if c1 = 'n' ∧ c2 = 'f' ∧ c3 = 'i' ∧ c4 = 'n' ∧ c5 = 'i' ∧ c6 = 't' ∧ c7 = 'y' then
            some (.num "Infinity", r)
          else none
        | _ => none
      else if c = '-' then
        match rest with
        | c1 :: c2 :: c3 :: c4 :: c5 :: c6 :: c7 :: c8 :: r =>
          if c1 = 'I' ∧ c2 = 'n' ∧ c3 = 'f' ∧ c4 = 'i' ∧ c5 = 'n' ∧ c6 = 'i' ∧
              c7 = 't' ∧ c8 = 'y' then
            some (.num "-Infinity", r)
          else
            match scanNumber (c :: rest) with
            | some (lex, r2) => some (.num lex, r2)
            | none => none
        | _ =>
          match scanNumber (c :: rest) with
          | some (lex, r2) => some (.num lex, r2)
          | none => none
      else
        match scanNumber (c :: rest) with
        | some (lex, r2) => some (.num lex, r2)
        | none => none

/-- Parse the members of a JSON object after its opening brace (input
already whitespace-skipped, known nonempty and not a closing brace). -/
def parseMembers : Nat → List Char → List (String × Json) →
    Option (List (String × Json) × List Char)
  | 0, _, _ => none
  | fuel + 1, cs, acc =>
    match cs with
    | '"' :: rest =>
      match scanStr rest "" with
      | none => none
      | some (k, r1) =>
        match skipWs r1 with
        | [] => none
        | d1 :: r2 =>
          if d1 = ':' then
            match parseVal fuel (skipWs r2) with
            | none => none
            | some (v, r3) =>
              match skipWs r3 with
              | d :: r4 =>
                if d = ',' then parseMembers fuel (skipWs r4) (objInsert acc k v)
                else if d = '\x7d' then some (objInsert acc k v, r4)
                else none
              | [] => none
          else none
    | _ => none

/-- Parse the elements of a JSON array after its opening bracket (input
already whitespace-skipped, known nonempty and not a closing bracket). -/
def parseElems : Nat → List Char → List Json → Option (List Json × List Char)
  | 0, _, _ => none
  | fuel + 1, cs, acc =>
    match parseVal fuel cs with
    | none => none
    | some (v, r1) =>
      match skipWs r1 with
      | d :: r2 =>
        if d = ',' then parseElems fuel (skipWs r2) (acc ++ [v])
        else if d = ']' then some (acc ++ [v], r2)
        else none
      | [] => none

end

/-- Python's json.loads on a string: skip leading whitespace, parse one
value, require only whitespace afterwards; none models a raised
ValueError. -/
def jsonLoads (s : String) : Option Json :=
  let cs := skipWs s.data
  match parseVal (2 * cs.length + 2) cs with
  | some (v, rest) => if skipWs rest = [] then some v else none
  | none => none

/-- The helper is_json of the source: true iff json.loads succeeds. -/
def is_json (s : String) : Bool :=
  (jsonLoads s).isSome

/-! ## Python runtime semantics needed by the source -/

/-- A Python exception relevant to the source: KeyError renders as the
quoted key; the message text of the other kinds is approximated. -/
inductive PyErr where
  | keyError (k : String)
  | typeError (msg : String)
  | attributeError (msg : String)
deriving Repr

/-- Rendering of an exception by str, as interpolated into the final
generator chunk. -/
def pyErrStr : PyErr → String
  | .keyError k => "\x27" ++ k ++ "\x27"
  | .typeError m => m
  | .attributeError m => m

/-- Python type name of a parsed JSON value (integer lexemes assumed for
numbers). -/
def pyTypeName : Json → String
  | .null => "NoneType"
  | .bool _ => "bool"
  | .num _ => "int"
  | .str _ => "str"
  | .arr _ => "list"
  | .obj _ => "dict"

/-- Association lookup over object members (keys are unique after
parsing, and objInsert keeps them unique). -/
def jLookup : List (String × Json) → String → Option Json
  | [], _ => none
  | (k, v) :: rest, key => if k = key then some v else jLookup rest key

/-- Whether the first character list occurs at the head of the second. -/
def startsWithSeq : List Char → List Char → Bool
  | [], _ => true
  | _ :: _, [] => false
  | n :: ns, h :: hs => n = h && startsWithSeq ns hs

/-- Whether the first character list occurs contiguously anywhere in the
second (the Python substring test). -/
def containsSeq (needle : List Char) : List Char → Bool
  | [] => startsWithSeq needle []
  | h :: hs => startsWithSeq needle (h :: hs) || containsSeq needle hs

/-- Python membership test (the in operator) of a string key against a
parsed JSON value: key lookup on a dict, element equality on a list,
substring test on a string; TypeError otherwise. -/
def pyContains (j : Json) (k : String) : Except PyErr Bool :=
  match j with
  | .obj m => .ok (jLookup m k).isSome
  | .arr l => .ok (l.any fun e => match e with | .str s => s = k | _ => false)
  | .str s => .ok (containsSeq k.data s.data)
  | j => .error (.typeError ("argument of type \x27" ++ pyTypeName j ++ "\x27 is not iterable"))

/-- Python subscription with a string key. -/
def pySubscript (j : Json) (k : String) : Except PyErr Json :=
  match j with
  | .obj m =>
    match jLookup m k with
    | some v => .ok v
    | none => .error (.keyError k)
  | .str _ => .error (.typeError "string indices must be integers")
  | .arr _ => .error (.typeError "list indices must be integers or slices, not str")
  | j => .error (.typeError ("\x27" ++ pyTypeName j ++ "\x27 object is not subscriptable"))

/-- The dict get method with a string key and a default; AttributeError on
anything that is not a dict. -/
def pyGetS (j : Json) (k : String) (dflt : Json) : Except PyErr Json :=
  match j with
  | .obj m => .ok ((jLookup m k).getD dflt)
  | j => .error (.attributeError
      ("\x27" ++ pyTypeName j ++ "\x27 object has no attribute \x27get\x27"))

/-- Python iteration over a parsed JSON value: list elements, string
characters, dict keys; TypeError otherwise. -/
def pyIter (j : Json) : Except PyErr (List Json) :=
  match j with
  | .arr l => .ok l
  | .str s => .ok (s.data.map fun c => .str (String.singleton c))
  | .obj m => .ok (m.map fun p => .str p.1)
  | j => .error (.typeError ("\x27" ++ pyTypeName j ++ "\x27 object is not iterable"))

/-- The join method of the empty string applied to a parsed JSON value:
every iterated item must be a string. -/
def pyJoinEmpty (j : Json) : Except PyErr String := do
  let items ← pyIter j
  items.foldlM (fun acc it =>
    match it with
    | Json.str s => .ok (acc ++ s)
    | _ => .error (.typeError "sequence item: expected str instance")) ""


/-! ## String rendering used by f-strings of the source -/

/-- Python str of a parsed JSON number, faithful for integer lexemes and
the NaN/Infinity constants (all that the source renders in practice). -/
def pyNumStr (lex : String) : String :=
  if lex = "-0" then "0"
  else if lex = "NaN" then "nan"
  else if lex = "Infinity" then "inf"
  else if lex = "-Infinity" then "-inf"
  else lex

/-- Fuel-indexed repr of a parsed JSON value (containers rendered with
Python literal syntax, strings in single quotes without escape
handling). -/
def pyReprF : Nat → Json → String
  | 0, _ => ""
  | f + 1, j =>
    match j with
    | .null => "None"
    | .bool true => "True"
    | .bool false => "False"
    | .num lex => pyNumStr lex
    | .str s => "\x27" ++ s ++ "\x27"
    | .arr l => "[" ++ String.intercalate ", " (l.map (pyReprF f)) ++ "]"
    | .obj m => "\x7b" ++ String.intercalate ", "
        (m.map fun p => "\x27" ++ p.1 ++ "\x27: " ++ pyReprF f p.2) ++ "\x7d"

mutual

/-- Nesting depth of a parsed JSON value (fuel bound for pyReprF). -/
def jDepth : Json → Nat
  | .arr l => jDepthList l + 1
  | .obj m => jDepthMembers m + 1
  | _ => 1

/-- Maximal depth over a list of values. -/
def jDepthList : List Json → Nat
  | [] => 0
  | j :: r => max (jDepth j) (jDepthList r)

/-- Maximal depth over object members. -/
def jDepthMembers : List (String × Json) → Nat
  | [] => 0
  | p :: r => max (jDepth p.2) (jDepthMembers r)

end

/-- Python str of a parsed JSON value, as interpolated by an f-string. -/
def pyStr (j : Json) : String :=
  match j with
  | .null => "None"
  | .bool true => "True"
  | .bool false => "False"
  | .num lex => pyNumStr lex
  | .str s => s
  | j => pyReprF (jDepth j) j

/-! ## Helper functions of the source (lines 134-195) -/

/-- The helper get_property of the source: data.get(field_name, default)
where the field name may be any parsed JSON value (it is a schema field
name in the data path). Parsed JSON dicts only ever have string keys, so
a hashable non-string key simply misses; an unhashable key raises. -/
def get_property (data : Json) (field : Json) (dflt : Json) : Except PyErr Json :=
  match data with
  | .obj m =>
    match field with
    | .arr _ => .error (.typeError "unhashable type: \x27list\x27")
    | .obj _ => .error (.typeError "unhashable type: \x27dict\x27")
    | .str s => .ok ((jLookup m s).getD dflt)
    | _ => .ok dflt
  | j => .error (.attributeError
      ("\x27" ++ pyTypeName j ++ "\x27 object has no attribute \x27get\x27"))

/-- The helper format_bq_table_ref of the source. -/
def format_bq_table_ref (table_ref : Json) : Except PyErr String := do
  let p ← pyGetS table_ref "projectId" (.str "unknown-project")
  let d ← pyGetS table_ref "datasetId" (.str "unknown-dataset")
  let t ← pyGetS table_ref "tableId" (.str "unknown-table")
  .ok (pyStr p ++ "." ++ pyStr d ++ "." ++ pyStr t)

/-- The helper format_looker_table_ref of the source. -/
def format_looker_table_ref (table_ref : Json) : Except PyErr String := do
  let m ← pyGetS table_ref "lookmlModel" (.str "unknown-model")
  let e ← pyGetS table_ref "explore" (.str "unknown-explore")
  .ok ("lookmlModel: " ++ pyStr m ++ ", explore: " ++ pyStr e)

/-- A pandas DataFrame built from a dict of columns: column keys in
insertion order, each with its list of cell values. -/
abbrev Dframe := List (Json × List Json)

/-- Key equality for Python dict insertion, restricted to hashable
scalars (numeric cross-type equality such as True == 1 is not modelled;
no claim exercises it). -/
def pyKeyEq : Json → Json → Bool
  | .null, .null => true
  | .bool a, .bool b => a == b
  | .num a, .num b => a == b
  | .str a, .str b => a == b
  | _, _ => false

/-- Insert a column into a DataFrame dict with Python dict semantics. -/
def dfInsert : Dframe → Json → List Json → Dframe
  | [], k, v => [(k, v)]
  | (k1, v1) :: rest, k, v =>
    if pyKeyEq k1 k then (k1, v) :: rest else (k1, v1) :: dfInsert rest k v

/-- Left-to-right effectful map over a list, aborting at the first
exception (the evaluation order of a Python list comprehension). -/
def eMapM (f : α → Except PyErr β) : List α → Except PyErr (List β)
  | [] => .ok []
  | a :: l => do
    let b ← f a
    let bs ← eMapM f l
    pure (b :: bs)

/-- The helper parse_schema_to_dataframe of the source: per datasource a
source name (Looker Studio, then Looker, then BigQuery, first match
wins) and a four-column field table. -/
def parse_schema_to_dataframe (datasources : Json) :
    Except PyErr (List (String × Dframe)) := do
  let ds ← pyIter datasources
  eMapM (fun datasource => do
    let hasStudio ← pyContains datasource "studioDatasourceId"
    let source_name ←
      if hasStudio then do
        let sid ← pySubscript datasource "studioDatasourceId"
        pure ("Looker Studio: " ++ pyStr sid)
      else do
        let hasLooker ← pyContains datasource "lookerExploreReference"
        if hasLooker then do
          let lr ← pySubscript datasource "lookerExploreReference"
          let fm ← format_looker_table_ref lr
          pure ("Looker: " ++ fm)
        else do
          let br ← pySubscript datasource "bigqueryTableReference"
          let fb ← format_bq_table_ref br
          pure ("BigQuery: " ++ fb)
    let schema ← pyGetS datasource "schema" (.obj [])
    let fieldsJ ← pyGetS schema "fields" (.arr [])
    let fields ← pyIter fieldsJ
    let names ← eMapM (fun f => get_property f (.str "name") (.str "")) fields
    let types ← eMapM (fun f => get_property f (.str "type") (.str "")) fields
    let descs ← eMapM (fun f => get_property f (.str "description") (.str "-")) fields
    let modes ← eMapM (fun f => get_property f (.str "mode") (.str "")) fields
    pure (source_name,
      ([(Json.str "Column", names), (Json.str "Type", types),
        (Json.str "Description", descs), (Json.str "Mode", modes)] : Dframe))) ds

/-- The helper parse_data_to_dataframe of the source: one column per
schema field name, each cell read from the row object with empty-string
default. -/
def parse_data_to_dataframe (result : Json) : Except PyErr Dframe := do
  let schema ← pyGetS result "schema" (.obj [])
  let fieldsJ ← pyGetS schema "fields" (.arr [])
  let fieldIt ← pyIter fieldsJ
  let fields ← eMapM (fun f => get_property f (.str "name") (.str "")) fieldIt
  let dataJ ← pyGetS result "data" (.arr [])
  fields.foldlM (fun dd field => do
    let rows ← pyIter dataJ
    let col ← eMapM (fun el => get_property el field (.str "")) rows
    match field with
    | .arr _ => .error (.typeError "unhashable type: \x27list\x27")
    | .obj _ => .error (.typeError "unhashable type: \x27dict\x27")
    | _ => .ok (dfInsert dd field col)) []

/-! ## The streaming generator stream_chat_response (lines 246-335) -/

/-- One value yielded by the generator (the api_message kind carries the
raw object kept for context; the others are display chunks). -/
inductive Chunk where
  | apiMessage (j : Json)
  | text (s : String)
  | sql (j : Json)
  | dataframe (df : Dframe)
  | chart (spec : Json)
  | error (s : String)
deriving Repr

/-- Mutable state of the generator loop: the JSON accumulator string and
the remembered rows of the most recent data result. -/
structure StreamState where
  acc : String
  latest_data_rows : Option Json
deriving Repr

/-- Result of handling one systemMessage value: chunks yielded, the new
remembered rows, an escaped exception if any, and the (possibly mutated)
systemMessage value as it is left in the context object. -/
structure HandleRes where
  chunks : List Chunk
  latest : Option Json
  err : Option PyErr
  msgOut : Json
deriving Repr

/-- Functional update of one key of a dict value (no-op otherwise); used
to mirror the in-place item assignment on the chart specification. -/
def setKey : Json → String → Json → Json
  | .obj m, k, v => .obj (objInsert m k v)
  | j, _, _ => j

/-- Rebuild the systemMessage value after the in-place assignment
spec.data = values performed on msg.chart.result.vegaConfig. -/
def mutateChartSpec (msg spec2 : Json) : Json :=
  match pySubscript msg "chart" with
  | .ok ch =>
    match pySubscript ch "result" with
    | .ok res => setKey msg "chart" (setKey ch "result" (setKey res "vegaConfig" spec2))
    | .error _ => msg
  | .error _ => msg

/-- The text branch of the dispatch (source line 297). -/
def handleText (msg : Json) (latest : Option Json) : HandleRes :=
  match (do
    let t ← pySubscript msg "text"
    let p ← pySubscript t "parts"
    pyJoinEmpty p) with
  | .ok s => ⟨[.text s], latest, none, msg⟩
  | .error e => ⟨[], latest, some e, msg⟩

/-- The schema branch of the dispatch (source lines 300-308). -/
def handleSchema (msg : Json) (latest : Option Json) : HandleRes :=
  match pySubscript msg "schema" with
  | .error e => ⟨[], latest, some e, msg⟩
  | .ok sub =>
    match pyContains sub "query" with
    | .error e => ⟨[], latest, some e, msg⟩
    | .ok true =>
      match (do
        let q ← pySubscript sub "query"
        pySubscript q "question") with
      | .ok qq =>
        ⟨[.text ("**Resolving schema for:** *" ++ pyStr qq ++ "*")], latest, none, msg⟩
      | .error e => ⟨[], latest, some e, msg⟩
    | .ok false =>
      match pyContains sub "result" with
      | .error e => ⟨[], latest, some e, msg⟩
      | .ok true =>
        match (do
          let r ← pySubscript sub "result"
          let dsrc ← pySubscript r "datasources"
          parse_schema_to_dataframe dsrc) with
        | .ok dfs =>
          ⟨.text "**Schema resolved. Data sources:**" ::
            (dfs.map fun p => [Chunk.text ("**" ++ p.1 ++ "**"), Chunk.dataframe p.2]).flatten,
           latest, none, msg⟩
        | .error e => ⟨[.text "**Schema resolved. Data sources:**"], latest, some e, msg⟩
      | .ok false => ⟨[], latest, none, msg⟩

/-- The data branch of the dispatch (source lines 310-328), including the
misplaced chart clause that the source nests inside it. -/
def handleData (msg : Json) (latest : Option Json) : HandleRes :=
  match pySubscript msg "data" with
  | .error e => ⟨[], latest, some e, msg⟩
  | .ok sub =>
    match pyContains sub "query" with
    | .error e => ⟨[], latest, some e, msg⟩
    | .ok true =>
      match (do
        let q ← pySubscript sub "query"
        pySubscript q "question") with
      | .ok qq => ⟨[.text ("**Retrieval Query:** *" ++ pyStr qq ++ "*")], latest, none, msg⟩
      | .error e => ⟨[], latest, some e, msg⟩
    | .ok false =>
      match pyContains sub "generatedSql" with
      | .error e => ⟨[], latest, some e, msg⟩
      | .ok true =>
        match pySubscript sub "generatedSql" with
        | .ok v => ⟨[.text "**Generated SQL:**", .sql v], latest, none, msg⟩
        | .error e => ⟨[.text "**Generated SQL:**"], latest, some e, msg⟩
      | .ok false =>
        match pyContains sub "result" with
        | .error e => ⟨[], latest, some e, msg⟩
        | .ok true =>
          match (do
            let res ← pySubscript sub "result"
            let df ← parse_data_to_dataframe res
            let rows ← pyGetS res "data" (.arr [])
            pure (df, rows) : Except PyErr (Dframe × Json)) with
          | .ok p => ⟨[.text "**Data retrieved:**", .dataframe p.1], some p.2, none, msg⟩
          | .error e => ⟨[.text "**Data retrieved:**"], latest, some e, msg⟩
        | .ok false =>
          match pySubscript msg "chart" with
          | .error e => ⟨[], latest, some e, msg⟩
          | .ok ch =>
            match pyContains ch "result" with
            | .error e => ⟨[], latest, some e, msg⟩
            | .ok true =>
              match (do
                let res ← pySubscript ch "result"
                pySubscript res "vegaConfig") with
              | .error e => ⟨[.text "**Chart generated:**"], latest, some e, msg⟩
              | .ok spec =>
                match latest with
                | some rows =>
                  match spec with
                  | .obj sm =>
                    let spec2 := Json.obj (objInsert sm "data" (.obj [("values", rows)]))
                    ⟨[.text "**Chart generated:**", .chart spec2], none, none,
                     mutateChartSpec msg spec2⟩
                  | _ =>
                    ⟨[.text "**Chart generated:**"], latest,
                     some (.typeError ("\x27" ++ pyTypeName spec ++
                       "\x27 object does not support item assignment")), msg⟩
                | none => ⟨[.text "**Chart generated:**", .chart spec], latest, none, msg⟩
            | .ok false => ⟨[], latest, none, msg⟩

/-- Dispatch over the systemMessage value (source lines 296-328): note
that the source has no top-level chart branch. -/
def handleMsg (msg : Json) (latest : Option Json) : HandleRes :=
  match pyContains msg "text" with
  | .error e => ⟨[], latest, some e, msg⟩
  | .ok true => handleText msg latest
  | .ok false =>
    match pyContains msg "schema" with
    | .error e => ⟨[], latest, some e, msg⟩
    | .ok true => handleSchema msg latest
    | .ok false =>
      match pyContains msg "data" with
      | .error e => ⟨[], latest, some e, msg⟩
      | .ok true => handleData msg latest
      | .ok false => ⟨[], latest, none, msg⟩

/-- Outcome of dispatching one parsed object: either the generator dies
(an exception reached the blanket handler, one final error chunk) or the
loop continues with the given state. -/
inductive DispatchOut where
  | stop (chunks : List Chunk) (latest : Option Json)
  | go (chunks : List Chunk) (st : StreamState)
deriving Repr

/-- The chunk produced by the blanket exception handler of the
generator. -/
def excChunk (e : PyErr) : Chunk :=
  .error ("An unexpected error occurred: " ++ pyErrStr e)

/-- Processing of one successfully parsed accumulator value (source lines
281-330): yield the raw object, then the error branch (which continues
WITHOUT resetting the accumulator), then the systemMessage check (also
without reset when absent), then the systemMessage dispatch followed by
the accumulator reset. -/
def dispatch (j : Json) (accNow : String) (latest : Option Json) : DispatchOut :=
  match pyContains j "error" with
  | .error e => .stop [.apiMessage j, excChunk e] latest
  | .ok true =>
    match (do
      let err ← pySubscript j "error"
      let c ← pyGetS err "code" .null
      let m ← pyGetS err "message" .null
      pure (Chunk.error ("Code: " ++ pyStr c ++ "\nMessage: " ++ pyStr m))
        : Except PyErr Chunk) with
    | .ok c => .go [.apiMessage j, c] ⟨accNow, latest⟩
    | .error e => .stop [.apiMessage j, excChunk e] latest
  | .ok false =>
    match pyContains j "systemMessage" with
    | .error e => .stop [.apiMessage j, excChunk e] latest
    | .ok false => .go [.apiMessage j] ⟨accNow, latest⟩
    | .ok true =>
      match pySubscript j "systemMessage" with
      | .error e => .stop [.apiMessage j, excChunk e] latest
      | .ok msg =>
        let r := handleMsg msg latest
        let j2 := setKey j "systemMessage" r.msgOut
        match r.err with
        | some e => .stop (.apiMessage j2 :: r.chunks ++ [excChunk e]) r.latest
        | none => .go (.apiMessage j2 :: r.chunks) ⟨"", r.latest⟩

/-- The generator loop over the decoded lines of the response body
(source lines 262-330): skip empty lines, the opener line restarts the
accumulator at an opening brace, the closer line appends a closing
brace, a comma line is skipped without a parse attempt, any other line
is appended; after each append the accumulator is parsed and a complete
object is dispatched. Returns the yielded chunks and the final loop
state. -/
def processLines : List String → StreamState → List Chunk × StreamState
  | [], st => ([], st)
  | line :: rest, st =>
    if line = "" then processLines rest st
    else if line = "," then processLines rest st
    else
      let acc2 :=
        if line = "[\x7b" then "\x7b"
        else if line = "\x7d]" then st.acc ++ "\x7d"
        else st.acc ++ line
      match jsonLoads acc2 with
      | none => processLines rest ⟨acc2, st.latest_data_rows⟩
      | some j =>
        match dispatch j acc2 st.latest_data_rows with
        | .stop chunks lat => (chunks, ⟨acc2, lat⟩)
        | .go chunks st2 =>
          let p := processLines rest st2
          (chunks ++ p.1, p.2)

/-- The generator stream_chat_response for a 200-status response whose
body decodes to the given lines (transport and authentication are
external collaborators; the accumulator starts empty and no data rows
are remembered). -/
def stream_chat_response (lines : List String) : List Chunk :=
  (processLines lines ⟨"", none⟩).1

/-! ## The driver loop of the UI (source lines 410-498) -/

/-- The context entry appended for a user turn (source line 424). -/
def userEntry (prompt : String) : Json :=
  .obj [("userMessage", .obj [("text", .str prompt)])]

/-- The chunk-splitting loop of the driver (source lines 452-458):
api_message chunks go to the API context list, everything else to the
display list, both in order. -/
def splitChunks : List Chunk → List Json × List Chunk
  | [] => ([], [])
  | .apiMessage j :: r =>
    let p := splitChunks r
    (j :: p.1, p.2)
  | c :: r =>
    let p := splitChunks r
    (p.1, c :: p.2)

/-- One full user turn of the driver: append the user context entry,
stream the response, split the chunks, and extend the conversation
context with the collected raw messages (source lines 424, 452-455,
498). Returns the new conversation context and the display chunks. -/
def runTurn (conv : List Json) (prompt : String) (lines : List String) :
    List Json × List Chunk :=
  let conv1 := conv ++ [userEntry prompt]
  let p := splitChunks (stream_chat_response lines)
  (conv1 ++ p.1, p.2)

/-- The raw api_message payloads of a chunk list, in order. -/
def apiMessages (chunks : List Chunk) : List Json :=
  chunks.filterMap fun c =>
    match c with
    | .apiMessage j => some j
    | _ => none

/-! ## Observers and side conditions used by the theorems -/

/-- Lookup along a path of string keys. -/
def jPath : Json → List String → Option Json
  | j, [] => some j
  | .obj m, k :: ks =>
    match jLookup m k with
    | some v => jPath v ks
    | none => none
  | _, _ :: _ => none

/-- Whether an object carries an injected data member on its chart
specification (observer distinguishing a mutated context entry). -/
def chartDataInjected (j : Json) : Bool :=
  (jPath j ["systemMessage", "chart", "result", "vegaConfig", "data"]).isSome

/-- A character that terminates any JSON token and cannot extend a number
lexeme: whitespace, comma, closing brace, closing bracket. -/
def hardStop (c : Char) : Bool :=
  isJsonWs c || c = ',' || c = '\x7d' || c = ']'

/-- Whether a character list starts with a hard stop character. -/
def headHardStop : List Char → Bool
  | [] => false
  | c :: _ => hardStop c

/-- Whether a string contains at least one character that is not JSON
whitespace. -/
def hasNonWs (s : String) : Bool :=
  s.data.any fun c => !(isJsonWs c)

/-- Projection of one schema field: read the key from the field object
with the given default (the shape get_property takes on dict fields). -/
def fieldGetD (k : String) (dflt : Json) (f : Json) : Json :=
  match f with
  | .obj fm => (jLookup fm k).getD dflt
  | _ => dflt

/-- The four-column field table built by parse_schema_to_dataframe:
Column, Type, Description (default dash) and Mode, in field order. -/
def schemaDf (fl : List Json) : Dframe :=
  [(Json.str "Column", fl.map (fieldGetD "name" (Json.str ""))),
   (Json.str "Type", fl.map (fieldGetD "type" (Json.str ""))),
   (Json.str "Description", fl.map (fieldGetD "description" (Json.str "-"))),
   (Json.str "Mode", fl.map (fieldGetD "mode" (Json.str "")))]

/-- Concatenation of fragment lines in order. -/
def joinFrags : List String → String
  | [] => ""
  | f :: fs => f ++ joinFrags fs

/-- The chunks yielded while dispatching one object, whether or not the
generator survives. -/
def dispatchChunks : DispatchOut → List Chunk
  | .stop c _ => c
  | .go c _ => c

/-- The raw context object produced by dispatching a parsed value: the
value itself, except that an object dispatched through the systemMessage
path carries the handler output (which the chart clause may have
mutated). -/
def postObj (j : Json) (latest : Option Json) : Json :=
  match j with
  | .obj m =>
    match jLookup m "error", jLookup m "systemMessage" with
    | none, some msg => setKey j "systemMessage" (handleMsg msg latest).msgOut
    | _, _ => j
  | _ => j

/-- A character list whose head stops a number or begins an exponent
(the shapes a fraction rest can take inside a stable parse). -/
def headStopOrExp : List Char → Bool
  | [] => false
  | c :: _ => hardStop c || c = 'e' || c = 'E'

/-- Whether a parsed JSON value is a number (its lexeme could be extended
by further characters). -/
def jIsNum : Json → Bool
  | .num _ => true
  | _ => false

/-! ## Claim C2: accumulator reset discipline -/

/-- C2 counterexample: the object made of the lines of the opener and one
fragment is parsed and dispatched (its raw api message is yielded), yet
the accumulator still holds the complete object text afterwards, not the
empty string: the reset is skipped for objects without a systemMessage
key, because the source reaches the next line through continue before
the reset statement. -/
theorem C2_counterexample :
    processLines ["[\x7b", "\"a\":1\x7d"] ⟨"", none⟩ =
      ([Chunk.apiMessage (Json.obj [("a", Json.num "1")])],
       ⟨"\x7b\"a\":1\x7d", none⟩) ∧
    ("\x7b\"a\":1\x7d" : String) ≠ "" :=
  ⟨rfl, by decide⟩

/-! ## Claim C3: backend error objects -/

/-- C3 counterexample: the exact input sequence of the claim (whose middle
line carries the full object text including its own braces) never parses,
because the opener line has already contributed an opening brace to the
accumulator; the stream yields nothing at all, in particular no Error
chunk. -/
theorem C3_counterexample :
    stream_chat_response
      ["[\x7b", "\x7b\"error\":\x7b\"code\":7,\"message\":\"denied\"\x7d\x7d", "\x7d]"] =
      [] :=
  rfl

/-! ## Claim C4: classifier totality -/

/-- C4: the object whose systemMessage carries a data key with none of
query, generatedSql or result is claimed to classify as Unclassified with
zero chunks; instead the source evaluates the subscription of the absent
chart key, raises KeyError, the blanket handler yields one unexpected
error chunk, and the generator terminates: a well-formed text object on
the remaining lines is never processed. -/
theorem C4_data_subkey_keyerror :
    stream_chat_response
      ["[\x7b", "\"systemMessage\":\x7b\"data\":\x7b\x7d\x7d", "\x7d]",
       "[\x7b", "\"systemMessage\":\x7b\"text\":\x7b\"parts\":[\"Hi\"]\x7d\x7d", "\x7d]"] =
      [Chunk.apiMessage (Json.obj [("systemMessage", Json.obj [("data", Json.obj [])])]),
       Chunk.error "An unexpected error occurred: \x27chart\x27"] :=
  rfl

/-! ## Claim C5: chart message projection -/

/-- C5: a systemMessage carrying only a chart key produces no display
chunk at all, neither the generating text for a chart query nor the
generated text and Chart chunk for a chart result: the source has no
top-level chart branch (its chart clause is nested inside the data
branch and reads vegaConfig), so chart messages fall through the whole
dispatch. -/
theorem C5_chart_branch_unreachable :
    stream_chat_response
      ["[\x7b",
       "\"systemMessage\":\x7b\"chart\":\x7b\"query\":\x7b\"instructions\":\"bar chart\"\x7d\x7d\x7d",
       "\x7d]"] =
      [Chunk.apiMessage (Json.obj [("systemMessage",
        Json.obj [("chart", Json.obj [("query",
          Json.obj [("instructions", Json.str "bar chart")])])])])] ∧
    stream_chat_response
      ["[\x7b",
       "\"systemMessage\":\x7b\"chart\":\x7b\"result\":\x7b\"vegaConfig\":\x7b\"mark\":\"point\"\x7d\x7d\x7d\x7d",
       "\x7d]"] =
      [Chunk.apiMessage (Json.obj [("systemMessage",
        Json.obj [("chart", Json.obj [("result",
          Json.obj [("vegaConfig", Json.obj [("mark", Json.str "point")])])])])])] :=
  ⟨rfl, rfl⟩

/-! ## Claim C6: chart and data correlation -/

/-- C6: a data result followed by a chart result is claimed to yield a
Chart chunk with the remembered rows injected and the memory cleared;
instead the chart-result object produces no Chart chunk at all (the
chart clause of the source is unreachable for a message carrying only a
chart key) and the remembered rows are never cleared, as the final loop
state shows. -/
theorem C6_chart_correlation_unreachable :
    processLines
      ["[\x7b",
       "\"systemMessage\":\x7b\"data\":\x7b\"result\":\x7b\"schema\":\x7b\"fields\":[\x7b\"name\":\"x\"\x7d,\x7b\"name\":\"y\"\x7d]\x7d,\"data\":[\x7b\"x\":1,\"y\":2\x7d]\x7d\x7d\x7d\x7d",
       ",",
       "\x7b\"systemMessage\":\x7b\"chart\":\x7b\"result\":\x7b\"vegaConfig\":\x7b\"mark\":\"point\"\x7d\x7d\x7d\x7d",
       "\x7d]"] ⟨"", none⟩ =
      ([Chunk.apiMessage (Json.obj [("systemMessage", Json.obj [("data", Json.obj
          [("result", Json.obj
            [("schema", Json.obj [("fields", Json.arr
              [Json.obj [("name", Json.str "x")], Json.obj [("name", Json.str "y")]])]),
             ("data", Json.arr [Json.obj [("x", Json.num "1"), ("y", Json.num "2")]])])])])]),
        Chunk.text "**Data retrieved:**",
        Chunk.dataframe [(Json.str "x", [Json.num "1"]), (Json.str "y", [Json.num "2"])],
        Chunk.apiMessage (Json.obj [("systemMessage", Json.obj [("chart", Json.obj
          [("result", Json.obj [("vegaConfig",
            Json.obj [("mark", Json.str "point")])])])])])],
       ⟨"", some (Json.arr [Json.obj [("x", Json.num "1"), ("y", Json.num "2")]])⟩) :=
  rfl

/-! ## Claim C9: text message end-to-end scenario -/

/-- C9 counterexample: the exact input sequence of the claim (whose middle
line carries the full object text including its own braces) never
parses, so the pipeline yields no chunk at all, in particular no text
chunk. -/
theorem C9_counterexample :
    stream_chat_response
      ["[\x7b", "\x7b\"systemMessage\":\x7b\"text\":\x7b\"parts\":[\"Hi\"]\x7d\x7d\x7d", "\x7d]"] =
      [] :=
  rfl

/-- C9 amended: with the middle line carrying the object body without the
brace contributed by the opener line, the stream yields exactly the raw
api message and one text chunk with the parts joined without separator,
and a turn of the driver appends the raw object to the context history
right after the user entry. -/
theorem C9_amended :
    stream_chat_response
      ["[\x7b", "\"systemMessage\":\x7b\"text\":\x7b\"parts\":[\"Hi\"]\x7d\x7d", "\x7d]"] =
      [Chunk.apiMessage (Json.obj [("systemMessage",
         Json.obj [("text", Json.obj [("parts", Json.arr [Json.str "Hi"])])])]),
       Chunk.text "Hi"] ∧
    runTurn [] "hello"
      ["[\x7b", "\"systemMessage\":\x7b\"text\":\x7b\"parts\":[\"Hi\"]\x7d\x7d", "\x7d]"] =
      ([userEntry "hello",
        Json.obj [("systemMessage",
          Json.obj [("text", Json.obj [("parts", Json.arr [Json.str "Hi"])])])]],
       [Chunk.text "Hi"]) :=
  ⟨rfl, rfl⟩

/-! ## Claim C10: no further emission after an error or unclassified dispatch -/

/-- C10 counterexample: after the object lacking systemMessage is
dispatched, a following line consisting of a single space keeps the
accumulator parseable (a complete object followed by whitespace is still
valid JSON), so the very same object is parsed and dispatched a second
time: a further raw context message IS produced from the remaining
lines. -/
theorem C10_counterexample :
    stream_chat_response ["[\x7b", "\"a\":1\x7d", " "] =
      [Chunk.apiMessage (Json.obj [("a", Json.num "1")]),
       Chunk.apiMessage (Json.obj [("a", Json.num "1")])] :=
  rfl

/-! ## Claim C1: reassembly of two framed objects -/

/-- C1 counterexample: a well-formed two-object input whose first object
is an error object (all fragments nonempty and distinct from the framing
lines, every proper accumulator state unparseable, both objects valid
JSON) yields only ONE reassembled object, not two: the error dispatch
skips the accumulator reset, so the second object can never complete. -/
theorem C1_counterexample :
    stream_chat_response ["[\x7b", "\"error\":\x7b\x7d\x7d", ",", "\x7b\"a\":1", "\x7d]"] =
      [Chunk.apiMessage (Json.obj [("error", Json.obj [])]),
       Chunk.error "Code: None\nMessage: None"] ∧
    apiMessages (stream_chat_response
      ["[\x7b", "\"error\":\x7b\x7d\x7d", ",", "\x7b\"a\":1", "\x7d]"]) =
      [Json.obj [("error", Json.obj [])]] :=
  ⟨rfl, rfl⟩

/-! ## Claim C7: context history replay -/

/-- C7 counterexample: the context entries are stored by reference, and
the chart clause mutates the vegaConfig sub-object of the current
message after its raw form has already been collected; for a data result
followed by an object carrying an empty data key next to a chart result,
the second stored context entry carries the injected data member and is
NOT equal to the message as the backend emitted it (its parse). -/
theorem C7_counterexample :
    (runTurn [] "q"
      ["[\x7b",
       "\"systemMessage\":\x7b\"data\":\x7b\"result\":\x7b\"schema\":\x7b\"fields\":[\x7b\"name\":\"x\"\x7d]\x7d,\"data\":[\x7b\"x\":1\x7d]\x7d\x7d\x7d\x7d",
       ",",
       "\x7b\"systemMessage\":\x7b\"data\":\x7b\x7d,\"chart\":\x7b\"result\":\x7b\"vegaConfig\":\x7b\"mark\":\"point\"\x7d\x7d\x7d\x7d",
       "\x7d]"]).1 =
      [userEntry "q",
       Json.obj [("systemMessage", Json.obj [("data", Json.obj [("result", Json.obj
         [("schema", Json.obj [("fields", Json.arr [Json.obj [("name", Json.str "x")]])]),
          ("data", Json.arr [Json.obj [("x", Json.num "1")]])])])])],
       Json.obj [("systemMessage", Json.obj [("data", Json.obj []),
         ("chart", Json.obj [("result", Json.obj [("vegaConfig", Json.obj
           [("mark", Json.str "point"),
            ("data", Json.obj [("values", Json.arr [Json.obj [("x", Json.num "1")]])])])])])])]] ∧
    jsonLoads
      "\x7b\"systemMessage\":\x7b\"data\":\x7b\x7d,\"chart\":\x7b\"result\":\x7b\"vegaConfig\":\x7b\"mark\":\"point\"\x7d\x7d\x7d\x7d\x7d" =
      some (Json.obj [("systemMessage", Json.obj [("data", Json.obj []), ("chart", Json.obj [("result", Json.obj [("vegaConfig", Json.obj [("mark", Json.str "point")])])])])]) ∧
    Json.obj [("systemMessage", Json.obj [("data", Json.obj []),
      ("chart", Json.obj [("result", Json.obj [("vegaConfig", Json.obj
        [("mark", Json.str "point"),
         ("data", Json.obj [("values", Json.arr [Json.obj [("x", Json.num "1")]])])])])])])] ≠
    Json.obj [("systemMessage", Json.obj [("data", Json.obj []), ("chart", Json.obj [("result", Json.obj [("vegaConfig", Json.obj [("mark", Json.str "point")])])])])] :=
  ⟨rfl, rfl, fun h => absurd (congrArg chartDataInjected h) (by decide)⟩

/-- The splitting loop of the driver separates the api payloads (in
order) from the display chunks (in order). -/
theorem splitChunks_eq (c : List Chunk) :
    splitChunks c =
      (apiMessages c,
       c.filter fun ch => match ch with | Chunk.apiMessage _ => false | _ => true) := by
  induction c with
  | nil => rfl
  | cons hd tl ih => cases hd <;> simp [splitChunks, apiMessages, ih]

/-- C7 amended: after a turn, the conversation context is the previous
context, then the user entry, then every raw message collected from the
stream, in order (each raw message is the object as it stands at the end
of the turn; the counterexample shows the chart clause can have mutated
it, so the entries are not always the objects exactly as emitted). -/
theorem C7_amended :
    ∀ (conv : List Json) (prompt : String) (lines : List String),
      (runTurn conv prompt lines).1 =
        conv ++ [userEntry prompt] ++ apiMessages (stream_chat_response lines) ∧
      (runTurn conv prompt lines).2 =
        (stream_chat_response lines).filter fun ch =>
          match ch with | Chunk.apiMessage _ => false | _ => true := by
  intro conv prompt lines
  unfold runTurn
  rw [splitChunks_eq]
  exact ⟨by simp, rfl⟩

/-- C2 amended: the accumulator is reset to empty exactly when a parsed
object is dispatched through the systemMessage path and its handling
raises no exception; after dispatching an object with an error key, or
one lacking systemMessage, the loop continues with the accumulator still
holding the complete object text. -/
theorem C2_amended :
    (∀ (m em : List (String × Json)) (acc2 : String) (latest : Option Json),
       jLookup m "error" = some (Json.obj em) →
       dispatch (Json.obj m) acc2 latest =
         .go [Chunk.apiMessage (Json.obj m),
              Chunk.error ("Code: " ++ pyStr ((jLookup em "code").getD Json.null) ++
                "\nMessage: " ++ pyStr ((jLookup em "message").getD Json.null))]
           ⟨acc2, latest⟩) ∧
    (∀ (m : List (String × Json)) (acc2 : String) (latest : Option Json),
       jLookup m "error" = none → jLookup m "systemMessage" = none →
       dispatch (Json.obj m) acc2 latest =
         .go [Chunk.apiMessage (Json.obj m)] ⟨acc2, latest⟩) ∧
    (∀ (m : List (String × Json)) (msg : Json) (acc2 : String) (latest : Option Json),
       jLookup m "error" = none → jLookup m "systemMessage" = some msg →
       (handleMsg msg latest).err = none →
       dispatch (Json.obj m) acc2 latest =
         .go (Chunk.apiMessage (setKey (Json.obj m) "systemMessage"
                (handleMsg msg latest).msgOut) :: (handleMsg msg latest).chunks)
           ⟨"", (handleMsg msg latest).latest⟩) := by
  refine ⟨?_, ?_, ?_⟩
  · intro m em acc2 latest he
    simp [dispatch, pyContains, pySubscript, pyGetS, he, Bind.bind, Except.bind,
      Functor.map, Except.map, Pure.pure, Except.pure]
  · intro m acc2 latest he hs
    simp [dispatch, pyContains, he, hs]
  · intro m msg acc2 latest he hs hok
    simp only [dispatch, pyContains, pySubscript, he, hs]
    simp [hok]

/-- C3 amended: an object whose error value is a dict yields exactly one
Error chunk, built as Code, newline, Message from the code and message
entries, and the generator continues with the next line (the error is
not fatal, though the accumulator is not reset); concretely, a stream
whose first object is the denied error (its braces contributed by the
framing lines) followed by a reopened text object yields the error chunk
Code 7 / denied and still processes the later object. -/
theorem C3_amended :
    (∀ (m em : List (String × Json)) (cv mv : Json) (acc2 : String) (latest : Option Json),
       jLookup m "error" = some (Json.obj em) →
       jLookup em "code" = some cv →
       jLookup em "message" = some mv →
       dispatch (Json.obj m) acc2 latest =
         .go [Chunk.apiMessage (Json.obj m),
              Chunk.error ("Code: " ++ pyStr cv ++ "\nMessage: " ++ pyStr mv)]
           ⟨acc2, latest⟩) ∧
    stream_chat_response
      ["[\x7b", "\"error\":\x7b\"code\":7,\"message\":\"denied\"\x7d", "\x7d]",
       "[\x7b", "\"systemMessage\":\x7b\"text\":\x7b\"parts\":[\"ok\"]\x7d\x7d", "\x7d]"] =
      [Chunk.apiMessage (Json.obj [("error",
         Json.obj [("code", Json.num "7"), ("message", Json.str "denied")])]),
       Chunk.error "Code: 7\nMessage: denied",
       Chunk.apiMessage (Json.obj [("systemMessage",
         Json.obj [("text", Json.obj [("parts", Json.arr [Json.str "ok"])])])]),
       Chunk.text "ok"] := by
  refine ⟨?_, rfl⟩
  intro m em cv mv acc2 latest he hc hm
  simp [dispatch, pyContains, pySubscript, pyGetS, he, hc, hm, Bind.bind, Except.bind,
    Functor.map, Except.map, Pure.pure, Except.pure]

/-- Witness for the amended C3 at the denied error object. -/
theorem C3_amended_witness :
    dispatch (Json.obj [("error",
        Json.obj [("code", Json.num "7"), ("message", Json.str "denied")])]) "x" none =
      .go [Chunk.apiMessage (Json.obj [("error",
             Json.obj [("code", Json.num "7"), ("message", Json.str "denied")])]),
           Chunk.error "Code: 7\nMessage: denied"]
        ⟨"x", none⟩ :=
  C3_amended.1 [("error", Json.obj [("code", Json.num "7"), ("message", Json.str "denied")])]
    [("code", Json.num "7"), ("message", Json.str "denied")]
    (Json.num "7") (Json.str "denied") "x" none rfl rfl rfl

/-- Witness for the amended C2 at one object of each dispatch kind. -/
theorem C2_amended_witness :
    dispatch (Json.obj [("error", Json.obj [])]) "t" none =
      .go [Chunk.apiMessage (Json.obj [("error", Json.obj [])]),
           Chunk.error "Code: None\nMessage: None"] ⟨"t", none⟩ ∧
    dispatch (Json.obj [("a", Json.num "1")]) "t" none =
      .go [Chunk.apiMessage (Json.obj [("a", Json.num "1")])] ⟨"t", none⟩ ∧
    dispatch (Json.obj [("systemMessage", Json.obj [("text",
        Json.obj [("parts", Json.arr [Json.str "Hi"])])])]) "t" none =
      .go [Chunk.apiMessage (Json.obj [("systemMessage", Json.obj [("text",
             Json.obj [("parts", Json.arr [Json.str "Hi"])])])]),
           Chunk.text "Hi"] ⟨"", none⟩ :=
  ⟨C2_amended.1 [("error", Json.obj [])] [] "t" none rfl,
   C2_amended.2.1 [("a", Json.num "1")] "t" none rfl rfl,
   C2_amended.2.2 [("systemMessage", Json.obj [("text",
     Json.obj [("parts", Json.arr [Json.str "Hi"])])])]
     (Json.obj [("text", Json.obj [("parts", Json.arr [Json.str "Hi"])])]) "t" none
     rfl rfl rfl⟩

/-! ## Claim C8: schema source naming and field table defaults -/

/-- On a list of field objects, the column comprehension of the source
succeeds and projects each field with its default. -/
theorem mapM_get_property_ok (fl : List Json) (k : String) (dflt : Json)
    (h : ∀ f ∈ fl, ∃ fm, f = Json.obj fm) :
    eMapM (fun f => get_property f (Json.str k) dflt) fl =
      Except.ok (fl.map (fieldGetD k dflt)) := by
  induction fl with
  | nil => rfl
  | cons hd tl ih =>
    obtain ⟨fm, rfl⟩ := h hd (by simp)
    have ihr := ih fun f hf => h f (by simp [hf])
    simp only [eMapM, Bind.bind, Except.bind, Pure.pure, Except.pure,
      get_property] at ihr ⊢
    rw [ihr]
    simp [fieldGetD]

/-- C8: per datasource the source name follows first-match precedence
(Looker Studio by studioDatasourceId, else Looker explore reference,
else a BigQuery triple with unknown-project, unknown-dataset and
unknown-table substituted for missing parts), and the field table has
the columns Column, Type, Description and Mode, where a missing
description projects to a dash and a missing name, type or mode projects
to the empty string. The first branch applies even when a BigQuery
reference is also present. -/
theorem C8_schema_naming_and_defaults :
    (∀ (m sm : List (String × Json)) (sid : Json) (fl : List Json),
       jLookup m "studioDatasourceId" = some sid →
       (jLookup m "schema").getD (Json.obj []) = Json.obj sm →
       (jLookup sm "fields").getD (Json.arr []) = Json.arr fl →
       (∀ f ∈ fl, ∃ fm, f = Json.obj fm) →
       parse_schema_to_dataframe (Json.arr [Json.obj m]) =
         .ok [("Looker Studio: " ++ pyStr sid, schemaDf fl)]) ∧
    (∀ (m sm lm : List (String × Json)) (fl : List Json),
       jLookup m "studioDatasourceId" = none →
       jLookup m "lookerExploreReference" = some (Json.obj lm) →
       (jLookup m "schema").getD (Json.obj []) = Json.obj sm →
       (jLookup sm "fields").getD (Json.arr []) = Json.arr fl →
       (∀ f ∈ fl, ∃ fm, f = Json.obj fm) →
       parse_schema_to_dataframe (Json.arr [Json.obj m]) =
         .ok [("Looker: lookmlModel: " ++
                 pyStr ((jLookup lm "lookmlModel").getD (Json.str "unknown-model")) ++
                 ", explore: " ++
                 pyStr ((jLookup lm "explore").getD (Json.str "unknown-explore")),
               schemaDf fl)]) ∧
    (∀ (m sm bm : List (String × Json)) (fl : List Json),
       jLookup m "studioDatasourceId" = none →
       jLookup m "lookerExploreReference" = none →
       jLookup m "bigqueryTableReference" = some (Json.obj bm) →
       (jLookup m "schema").getD (Json.obj []) = Json.obj sm →
       (jLookup sm "fields").getD (Json.arr []) = Json.arr fl →
       (∀ f ∈ fl, ∃ fm, f = Json.obj fm) →
       parse_schema_to_dataframe (Json.arr [Json.obj m]) =
         .ok [("BigQuery: " ++
                 pyStr ((jLookup bm "projectId").getD (Json.str "unknown-project")) ++ "." ++
                 pyStr ((jLookup bm "datasetId").getD (Json.str "unknown-dataset")) ++ "." ++
                 pyStr ((jLookup bm "tableId").getD (Json.str "unknown-table")),
               schemaDf fl)]) := by
  refine ⟨?_, ?_, ?_⟩
  · intro m sm sid fl hsid hschema hfields hfl
    unfold parse_schema_to_dataframe
    simp [pyIter, eMapM, pyContains, hsid, pySubscript, pyGetS, hschema, hfields,
      mapM_get_property_ok _ _ _ hfl, schemaDf, Bind.bind, Except.bind,
      Pure.pure, Except.pure]
  · intro m sm lm fl hsid hlook hschema hfields hfl
    unfold parse_schema_to_dataframe
    simp [pyIter, eMapM, pyContains, hsid, hlook, pySubscript, pyGetS, hschema, hfields,
      mapM_get_property_ok _ _ _ hfl, schemaDf, format_looker_table_ref,
      Bind.bind, Except.bind, Pure.pure, Except.pure, String.append_assoc]
    rw [show ("Looker: lookmlModel: " : String) = "Looker: " ++ "lookmlModel: " from rfl,
      String.append_assoc]
  · intro m sm bm fl hsid hlook hbq hschema hfields hfl
    unfold parse_schema_to_dataframe
    simp [pyIter, eMapM, pyContains, hsid, hlook, hbq, pySubscript, pyGetS, hschema,
      hfields, mapM_get_property_ok _ _ _ hfl, schemaDf, format_bq_table_ref,
      Bind.bind, Except.bind, Pure.pure, Except.pure, String.append_assoc]

/-- Witness for C8: a datasource carrying both a studio id and a BigQuery
reference is named through the studio branch, its field (with no
description and no mode) projecting to dash and empty string; and a
datasource with only a partial BigQuery reference gets the unknown
substitutions. -/
theorem C8_witness :
    parse_schema_to_dataframe (Json.arr [Json.obj
      [("studioDatasourceId", Json.str "abc"),
       ("bigqueryTableReference", Json.obj [("projectId", Json.str "p")]),
       ("schema", Json.obj [("fields", Json.arr
         [Json.obj [("name", Json.str "f1"), ("type", Json.str "STRING")]])])]]) =
      .ok [("Looker Studio: abc",
        [(Json.str "Column", [Json.str "f1"]),
         (Json.str "Type", [Json.str "STRING"]),
         (Json.str "Description", [Json.str "-"]),
         (Json.str "Mode", [Json.str ""])])] ∧
    parse_schema_to_dataframe (Json.arr [Json.obj
      [("bigqueryTableReference", Json.obj [("projectId", Json.str "p")])]]) =
      .ok [("BigQuery: p.unknown-dataset.unknown-table",
        [(Json.str "Column", []), (Json.str "Type", []),
         (Json.str "Description", []), (Json.str "Mode", [])])] :=
  ⟨(C8_schema_naming_and_defaults.1
      [("studioDatasourceId", Json.str "abc"),
       ("bigqueryTableReference", Json.obj [("projectId", Json.str "p")]),
       ("schema", Json.obj [("fields", Json.arr
         [Json.obj [("name", Json.str "f1"), ("type", Json.str "STRING")]])])]
      [("fields", Json.arr [Json.obj [("name", Json.str "f1"), ("type", Json.str "STRING")]])]
      (Json.str "abc")
      [Json.obj [("name", Json.str "f1"), ("type", Json.str "STRING")]]
      rfl rfl rfl
      (by intro f hf; simp at hf; exact ⟨_, hf⟩)).trans rfl,
   (C8_schema_naming_and_defaults.2.2
      [("bigqueryTableReference", Json.obj [("projectId", Json.str "p")])]
      [] [("projectId", Json.str "p")] []
      rfl rfl rfl rfl rfl
      (fun f hf => absurd hf (List.not_mem_nil f))).trans rfl⟩

/-! ## Helper lemmas about dispatch and accumulation (used for C1) -/

/-- Reinserting the value a key already has leaves the members
unchanged. -/
theorem objInsert_self (m : List (String × Json)) (k : String) (v : Json)
    (h : jLookup m k = some v) : objInsert m k v = m := by
  induction m with
  | nil => simp [jLookup] at h
  | cons p rest ih =>
    obtain ⟨k1, v1⟩ := p
    by_cases hk : k1 = k
    · subst hk
      simp [jLookup] at h
      simp [objInsert, h]
    · simp [jLookup, hk] at h
      simp [objInsert, hk, ih h]

/-- With no remembered rows, handling a systemMessage value never mutates
it (the chart clause only rewrites the specification when rows are
remembered). -/
theorem handleMsg_msgOut_none (msg : Json) : (handleMsg msg none).msgOut = msg := by
  unfold handleMsg handleText handleSchema handleData
  rcases msg with _ | b | lex | s | l | m <;>
    simp only [pyContains] <;>
    repeat' first
      | rfl
      | split

/-- The handler of a systemMessage value never yields a raw api message
chunk. -/
theorem handleMsg_no_api (msg : Json) (latest : Option Json) :
    apiMessages (handleMsg msg latest).chunks = [] := by
  have hflat : ∀ dfs : List (String × Dframe),
      apiMessages ((dfs.map fun p =>
        [Chunk.text ("**" ++ p.1 ++ "**"), Chunk.dataframe p.2]).flatten) = [] := by
    intro dfs
    induction dfs with
    | nil => rfl
    | cons hd tl ih => simp [apiMessages, ih]
  unfold handleMsg handleText handleSchema handleData
  repeat' first
    | rfl
    | exact hflat _
    | simp only [apiMessages, List.filterMap]
    | split

/-- Dispatch of an object through the systemMessage path without
exception: the raw message (with the handler output substituted), the
handler chunks, and continuation with an EMPTY accumulator. -/
theorem dispatch_sysmsg_go (m : List (String × Json)) (msg : Json) (acc2 : String)
    (latest : Option Json)
    (he : jLookup m "error" = none) (hs : jLookup m "systemMessage" = some msg)
    (hok : (handleMsg msg latest).err = none) :
    dispatch (Json.obj m) acc2 latest =
      .go (Chunk.apiMessage (setKey (Json.obj m) "systemMessage"
             (handleMsg msg latest).msgOut) :: (handleMsg msg latest).chunks)
        ⟨"", (handleMsg msg latest).latest⟩ := by
  simp only [dispatch, pyContains, pySubscript, he, hs]
  simp [hok]

/-- Whatever the dispatch outcome, exactly one raw api message is among
its chunks, and it is the post-dispatch object. -/
theorem dispatch_apiMessages (j : Json) (acc2 : String) (latest : Option Json) :
    apiMessages (dispatchChunks (dispatch j acc2 latest)) = [postObj j latest] := by
  rcases j with _ | b | lex | s | l | m
  · simp [dispatch, postObj, pyContains, dispatchChunks, apiMessages, excChunk]
  · simp [dispatch, postObj, pyContains, dispatchChunks, apiMessages, excChunk]
  · simp [dispatch, postObj, pyContains, dispatchChunks, apiMessages, excChunk]
  · simp only [dispatch, postObj, pyContains, pySubscript]
    cases h1 : containsSeq "error".data s.data
    · simp only [h1]
      cases h2 : containsSeq "systemMessage".data s.data <;>
        simp [h2, dispatchChunks, apiMessages, excChunk]
    · simp [h1, dispatchChunks, apiMessages, excChunk, Bind.bind, Except.bind]
  · simp only [dispatch, postObj, pyContains, pySubscript]
    cases h1 : l.any fun e => match e with | Json.str s => s = "error" | _ => false
    · simp only [h1]
      cases h2 : l.any fun e => match e with | Json.str s => s = "systemMessage" | _ => false <;>
        simp [h2, dispatchChunks, apiMessages, excChunk]
    · simp [h1, dispatchChunks, apiMessages, excChunk, Bind.bind, Except.bind]
  · rcases he : jLookup m "error" with _ | ev
    · rcases hs : jLookup m "systemMessage" with _ | msg
      · simp [dispatch, postObj, pyContains, pySubscript, he, hs, dispatchChunks, apiMessages]
      · simp only [dispatch, postObj, pyContains, pySubscript, he, hs, Option.isSome]
        have hna := handleMsg_no_api msg latest
        rcases hok : (handleMsg msg latest).err with _ | e <;>
          simp [hok, apiMessages, excChunk, dispatchChunks] <;>
          simp [apiMessages] at hna <;> exact hna
    · rcases ev with _ | b2 | lex2 | s2 | l2 | em <;>
        simp [dispatch, postObj, pyContains, pySubscript, he, apiMessages, excChunk,
          Bind.bind, Except.bind, pyGetS, Pure.pure, Except.pure, dispatchChunks]

/-- Fragment lines that never complete a parse just accumulate onto the
JSON accumulator, producing no chunk. -/
theorem accumFrags (frags restL : List String) (acc0 : String) (latest : Option Json)
    (hne : ∀ f ∈ frags, f ≠ "" ∧ f ≠ "[\x7b" ∧ f ≠ "\x7d]" ∧ f ≠ ",")
    (hnp : ∀ i, 0 < i → i ≤ frags.length →
      jsonLoads (acc0 ++ joinFrags (frags.take i)) = none) :
    processLines (frags ++ restL) ⟨acc0, latest⟩ =
      processLines restL ⟨acc0 ++ joinFrags frags, latest⟩ := by
  induction frags generalizing acc0 with
  | nil => simp [joinFrags]
  | cons f fs ih =>
    obtain ⟨h1, h2, h3, h4⟩ := hne f (by simp)
    have hp1 : jsonLoads (acc0 ++ f) = none := by
      have := hnp 1 (by omega) (by simp)
      simpa [joinFrags] using this
    show processLines (f :: (fs ++ restL)) ⟨acc0, latest⟩ = _
    rw [processLines, if_neg h1, if_neg h4]
    simp only [if_neg h2, if_neg h3, hp1]
    rw [ih (acc0 ++ f) (fun g hg => hne g (by simp [hg]))
      (fun i hi hle => by
        have := hnp (i + 1) (by omega) (by simp; omega)
        simpa [joinFrags, String.append_assoc] using this)]
    simp [joinFrags, String.append_assoc]

/-- Fragment lines whose proper accumulations never parse but whose full
accumulation parses end in a dispatch of the parsed object. -/
theorem accumFragsDispatch (frags restL : List String) (acc0 : String)
    (latest : Option Json) (j : Json)
    (hne : ∀ f ∈ frags, f ≠ "" ∧ f ≠ "[\x7b" ∧ f ≠ "\x7d]" ∧ f ≠ ",")
    (hnp : ∀ i, 0 < i → i < frags.length →
      jsonLoads (acc0 ++ joinFrags (frags.take i)) = none)
    (hj : jsonLoads (acc0 ++ joinFrags frags) = some j)
    (hfne : frags ≠ []) :
    processLines (frags ++ restL) ⟨acc0, latest⟩ =
      match dispatch j (acc0 ++ joinFrags frags) latest with
      | .stop chunks lat => (chunks, ⟨acc0 ++ joinFrags frags, lat⟩)
      | .go chunks st2 =>
        (chunks ++ (processLines restL st2).1, (processLines restL st2).2) := by
  induction frags generalizing acc0 with
  | nil => exact absurd rfl hfne
  | cons f fs ih =>
    obtain ⟨h1, h2, h3, h4⟩ := hne f (by simp)
    cases fs with
    | nil =>
      have hj1 : jsonLoads (acc0 ++ f) = some j := by
        simpa [joinFrags] using hj
      show processLines (f :: restL) ⟨acc0, latest⟩ = _
      rw [processLines, if_neg h1, if_neg h4]
      simp only [if_neg h2, if_neg h3, hj1]
      simp [joinFrags]
    | cons f2 fs2 =>
      have hp1 : jsonLoads (acc0 ++ f) = none := by
        have := hnp 1 (by omega) (by simp)
        simpa [joinFrags] using this
      show processLines (f :: ((f2 :: fs2) ++ restL)) ⟨acc0, latest⟩ = _
      rw [processLines, if_neg h1, if_neg h4]
      simp only [if_neg h2, if_neg h3, hp1]
      rw [ih (acc0 ++ f) (fun g hg => hne g (by simp [hg]))
        (fun i hi hlt => by
          have := hnp (i + 1) (by omega)
            (by simp only [List.length_cons] at hlt ⊢; omega)
          simpa [joinFrags, String.append_assoc] using this)
        (by simpa [joinFrags, String.append_assoc] using hj)
        (by simp)]
      simp [joinFrags, String.append_assoc]

/-- Appending the result of the final closer-line dispatch contributes
exactly the post-dispatch object to the raw message list. -/
theorem apiMessages_closerStep (j : Json) (A : String) (lat : Option Json)
    (pre : List Chunk) :
    apiMessages (pre ++
      (match dispatch j A lat with
       | .stop chunks l2 => (chunks, (⟨A, l2⟩ : StreamState))
       | .go chunks st2 => (chunks ++ [], st2)).1) =
      apiMessages pre ++ [postObj j lat] := by
  have hapi := dispatch_apiMessages j A lat
  rcases hd : dispatch j A lat with ⟨chunks, l2⟩ | ⟨chunks, st2⟩ <;>
    rw [hd] at hapi <;>
    simp only [dispatchChunks] at hapi <;>
    simp [apiMessages, List.filterMap_append] at hapi ⊢ <;>
    simp [hapi]

/-- C1 amended: for a well-formed two-object input (fragments nonempty
and distinct from the framing lines, no proper accumulation parseable,
both concatenations parseable, object one built from the opener brace
plus its fragments and object two from its fragments plus the closer
brace), PROVIDED the first object dispatches through the systemMessage
path without exception, the Frame Reassembler emits exactly the two
parsed objects, in order (the second as left by its dispatch, which for
a chart result may carry injected row data). The counterexample shows
the proviso is necessary: an error-object first member suppresses the
second object entirely. -/
theorem C1_amended :
    ∀ (frags1 frags2 : List String) (m1 : List (String × Json)) (msg1 j2 : Json),
      (∀ f ∈ frags1, f ≠ "" ∧ f ≠ "[\x7b" ∧ f ≠ "\x7d]" ∧ f ≠ ",") →
      (∀ f ∈ frags2, f ≠ "" ∧ f ≠ "[\x7b" ∧ f ≠ "\x7d]" ∧ f ≠ ",") →
      (∀ i, 0 < i → i < frags1.length →
        jsonLoads ("\x7b" ++ joinFrags (frags1.take i)) = none) →
      (∀ i, 0 < i → i ≤ frags2.length →
        jsonLoads (joinFrags (frags2.take i)) = none) →
      frags1 ≠ [] →
      jsonLoads ("\x7b" ++ joinFrags frags1) = some (Json.obj m1) →
      jLookup m1 "error" = none →
      jLookup m1 "systemMessage" = some msg1 →
      (handleMsg msg1 none).err = none →
      jsonLoads (joinFrags frags2 ++ "\x7d") = some j2 →
      apiMessages (stream_chat_response
          ("[\x7b" :: (frags1 ++ ("," :: (frags2 ++ ["\x7d]"]))))) =
        [Json.obj m1, postObj j2 (handleMsg msg1 none).latest] := by
  intro frags1 frags2 m1 msg1 j2 hne1 hne2 hnp1 hnp2 hf1 hj1 he hs hok hj2
  unfold stream_chat_response
  have step1 : processLines ("[\x7b" :: (frags1 ++ ("," :: (frags2 ++ ["\x7d]"]))))
      ⟨"", none⟩ =
      processLines (frags1 ++ ("," :: (frags2 ++ ["\x7d]"]))) ⟨"\x7b", none⟩ := rfl
  rw [step1, accumFragsDispatch frags1 _ "\x7b" none (Json.obj m1) hne1 hnp1 hj1 hf1,
    dispatch_sysmsg_go m1 msg1 _ none he hs hok]
  dsimp only
  have hsk : setKey (Json.obj m1) "systemMessage" (handleMsg msg1 none).msgOut =
      Json.obj m1 := by
    rw [handleMsg_msgOut_none msg1]
    simp [setKey, objInsert_self m1 _ _ hs]
  rw [hsk]
  have step2 : processLines ("," :: (frags2 ++ ["\x7d]"]))
      ⟨"", (handleMsg msg1 none).latest⟩ =
      processLines (frags2 ++ ["\x7d]"]) ⟨"", (handleMsg msg1 none).latest⟩ := rfl
  rw [step2, accumFrags frags2 ["\x7d]"] "" (handleMsg msg1 none).latest hne2
    (fun i hi hle => by simpa using hnp2 i hi hle)]
  have closer : ∀ (A : String) (lat : Option Json),
      processLines ["\x7d]"] ⟨A, lat⟩ =
      match jsonLoads (A ++ "\x7d") with
      | none => ([], ⟨A ++ "\x7d", lat⟩)
      | some j =>
        match dispatch j (A ++ "\x7d") lat with
        | .stop chunks l2 => (chunks, ⟨A ++ "\x7d", l2⟩)
        | .go chunks st2 => (chunks ++ [], st2) :=
    fun A lat => rfl
  rw [closer]
  have hj2e : jsonLoads ("" ++ joinFrags frags2 ++ "\x7d") = some j2 := hj2
  rw [hj2e]
  rw [apiMessages_closerStep]
  have hna := handleMsg_no_api msg1 none
  simp [apiMessages] at hna ⊢
  exact hna

/-- Witness for the amended C1: a text object split over two fragments
followed by a plain object split over two fragments yields exactly those
two objects, in order. -/
theorem C1_amended_witness :
    apiMessages (stream_chat_response
      ["[\x7b", "\"systemMessage\":\x7b\"text\":", "\x7b\"parts\":[\"Hi\"]\x7d\x7d\x7d",
       ",", "\x7b\"a\":", "1", "\x7d]"]) =
      [Json.obj [("systemMessage",
         Json.obj [("text", Json.obj [("parts", Json.arr [Json.str "Hi"])])])],
       Json.obj [("a", Json.num "1")]] :=
  (C1_amended
    ["\"systemMessage\":\x7b\"text\":", "\x7b\"parts\":[\"Hi\"]\x7d\x7d\x7d"]
    ["\x7b\"a\":", "1"]
    [("systemMessage", Json.obj [("text", Json.obj [("parts", Json.arr [Json.str "Hi"])])])]
    (Json.obj [("text", Json.obj [("parts", Json.arr [Json.str "Hi"])])])
    (Json.obj [("a", Json.num "1")])
    (by decide) (by decide)
    (by
      intro i h1 h2
      have h3 : i = 1 := by simp at h2; omega
      subst h3; rfl)
    (by
      intro i h1 h2
      simp at h2
      rcases (by omega : i = 1 ∨ i = 2) with h3 | h3 <;> subst h3 <;> rfl)
    (by decide) rfl rfl rfl rfl rfl).trans rfl

theorem parseVal_brace (f : Nat) (cs2 : List Char) :
    parseVal (f + 1) ('\x7b' :: cs2) =
      (match skipWs cs2 with
       | [] => none
       | d :: r2 =>
         if d = '\x7d' then some (.obj [], r2)
         else
           match parseMembers f (d :: r2) [] with
           | some (m, r3) => some (.obj m, r3)
           | none => none) := rfl

theorem parseVal_quote (f : Nat) (cs2 : List Char) :
    parseVal (f + 1) ('"' :: cs2) =
      (match scanStr cs2 "" with
       | some (s, r) => some (.str s, r)
       | none => none) := rfl

theorem parseVal_zero (cs : List Char) : parseVal 0 cs = none := rfl

theorem parseVal_nil (f : Nat) : parseVal (f + 1) [] = none := rfl

theorem parseVal_brack (f : Nat) (cs2 : List Char) :
    parseVal (f + 1) ('[' :: cs2) =
      (match skipWs cs2 with
       | [] => none
       | d :: r2 =>
         if d = ']' then some (.arr [], r2)
         else
           match parseElems f (d :: r2) [] with
           | some (l, r3) => some (.arr l, r3)
           | none => none) := rfl

theorem parseVal_tchar (f : Nat) (cs2 : List Char) :
    parseVal (f + 1) ('t' :: cs2) =
      (match cs2 with
       | c1 :: c2 :: c3 :: r =>
         if c1 = 'r' ∧ c2 = 'u' ∧ c3 = 'e' then some (.bool true, r) else none
       | _ => none) := rfl

theorem parseVal_fchar (f : Nat) (cs2 : List Char) :
    parseVal (f + 1) ('f' :: cs2) =
      (match cs2 with
       | c1 :: c2 :: c3 :: c4 :: r =>
         if c1 = 'a' ∧ c2 = 'l' ∧ c3 = 's' ∧ c4 = 'e' then some (.bool false, r)
         else none
       | _ => none) := rfl

theorem parseVal_nchar (f : Nat) (cs2 : List Char) :
    parseVal (f + 1) ('n' :: cs2) =
      (match cs2 with
       | c1 :: c2 :: c3 :: r =>
         if c1 = 'u' ∧ c2 = 'l' ∧ c3 = 'l' then some (.null, r) else none
       | _ => none) := rfl

theorem parseVal_nanchar (f : Nat) (cs2 : List Char) :
    parseVal (f + 1) ('N' :: cs2) =
      (match cs2 with
       | c1 :: c2 :: r => if c1 = 'a' ∧ c2 = 'N' then some (.num "NaN", r) else none
       | _ => none) := rfl

theorem parseVal_infchar (f : Nat) (cs2 : List Char) :
    parseVal (f + 1) ('I' :: cs2) =
      (match cs2 with
       | c1 :: c2 :: c3 :: c4 :: c5 :: c6 :: c7 :: r =>
         if c1 = 'n' ∧ c2 = 'f' ∧ c3 = 'i' ∧ c4 = 'n' ∧ c5 = 'i' ∧ c6 = 't' ∧ c7 = 'y' then
           some (.num "Infinity", r)
         else none
       | _ => none) := rfl

theorem parseVal_minus (f : Nat) (cs2 : List Char) :
    parseVal (f + 1) ('-' :: cs2) =
      (match cs2 with
       | c1 :: c2 :: c3 :: c4 :: c5 :: c6 :: c7 :: c8 :: r =>
         if c1 = 'I' ∧ c2 = 'n' ∧ c3 = 'f' ∧ c4 = 'i' ∧ c5 = 'n' ∧ c6 = 'i' ∧
             c7 = 't' ∧ c8 = 'y' then
           some (.num "-Infinity", r)
         else
           match scanNumber ('-' :: cs2) with
           | some (lex, r2) => some (.num lex, r2)
           | none => none
       | _ =>
         match scanNumber ('-' :: cs2) with
         | some (lex, r2) => some (.num lex, r2)
         | none => none) := rfl

theorem parseVal_cons (f : Nat) (c : Char) (cs2 : List Char) :
    parseVal (f + 1) (c :: cs2) =
      (if c = '\x7b' then
        match skipWs cs2 with
        | [] => none
        | d :: r2 =>
          if d = '\x7d' then some (.obj [], r2)
          else
            match parseMembers f (d :: r2) [] with
            | some (m, r3) => some (.obj m, r3)
            | none => none
      else if c = '[' then
        match skipWs cs2 with
        | [] => none
        | d :: r2 =>
          if d = ']' then some (.arr [], r2)
          else
            match parseElems f (d :: r2) [] with
            | some (l, r3) => some (.arr l, r3)
            | none => none
      else if c = '"' then
        match scanStr cs2 "" with
        | some (s, r) => some (.str s, r)
        | none => none
      else if c = 't' then
        match cs2 with
        | c1 :: c2 :: c3 :: r =>
          if c1 = 'r' ∧ c2 = 'u' ∧ c3 = 'e' then some (.bool true, r) else none
        | _ => none
      else if c = 'f' then
        match cs2 with
        | c1 :: c2 :: c3 :: c4 :: r =>
          if c1 = 'a' ∧ c2 = 'l' ∧ c3 = 's' ∧ c4 = 'e' then some (.bool false, r)
          else none
        | _ => none
      else if c = 'n' then
        match cs2 with
        | c1 :: c2 :: c3 :: r =>
          if c1 = 'u' ∧ c2 = 'l' ∧ c3 = 'l' then some (.null, r) else none
        | _ => none
      else if c = 'N' then
        match cs2 with
        | c1 :: c2 :: r => if c1 = 'a' ∧ c2 = 'N' then some (.num "NaN", r) else none
        | _ => none
      else if c = 'I' then
        match cs2 with
        | c1 :: c2 :: c3 :: c4 :: c5 :: c6 :: c7 :: r =>
          if c1 = 'n' ∧ c2 = 'f' ∧ c3 = 'i' ∧ c4 = 'n' ∧ c5 = 'i' ∧ c6 = 't' ∧ c7 = 'y' then
            some (.num "Infinity", r)
          else none
        | _ => none
      else if c = '-' then
        match cs2 with
        | c1 :: c2 :: c3 :: c4 :: c5 :: c6 :: c7 :: c8 :: r =>
          if c1 = 'I' ∧ c2 = 'n' ∧ c3 = 'f' ∧ c4 = 'i' ∧ c5 = 'n' ∧ c6 = 'i' ∧
              c7 = 't' ∧ c8 = 'y' then
            some (.num "-Infinity", r)
          else
            match scanNumber (c :: cs2) with
            | some (lex, r2) => some (.num lex, r2)
            | none => none
        | _ =>
          match scanNumber (c :: cs2) with
          | some (lex, r2) => some (.num lex, r2)
          | none => none
      else
        match scanNumber (c :: cs2) with
        | some (lex, r2) => some (.num lex, r2)
        | none => none) := rfl

theorem parseVal_other (f : Nat) (c : Char) (cs2 : List Char)
    (h1 : ¬c = '\x7b') (h2 : ¬c = '[') (h3 : ¬c = '"') (h4 : ¬c = 't')
    (h5 : ¬c = 'f') (h6 : ¬c = 'n') (h7 : ¬c = 'N') (h8 : ¬c = 'I')
    (h9 : ¬c = '-') :
    parseVal (f + 1) (c :: cs2) =
      (match scanNumber (c :: cs2) with
       | some (lex, r2) => some (.num lex, r2)
       | none => none) := by
  rw [parseVal_cons, if_neg h1, if_neg h2, if_neg h3, if_neg h4, if_neg h5,
    if_neg h6, if_neg h7, if_neg h8, if_neg h9]

theorem parseMembers_zero (cs : List Char) (acc : List (String × Json)) :
    parseMembers 0 cs acc = none := rfl

theorem parseMembers_quote (f : Nat) (cs2 : List Char) (acc : List (String × Json)) :
    parseMembers (f + 1) ('"' :: cs2) acc =
      (match scanStr cs2 "" with
       | none => none
       | some (k, r1) =>
         match skipWs r1 with
         | [] => none
         | d1 :: r2 =>
           if d1 = ':' then
             match parseVal f (skipWs r2) with
             | none => none
             | some (v, r3) =>
               match skipWs r3 with
               | d :: r4 =>
                 if d = ',' then parseMembers f (skipWs r4) (objInsert acc k v)
                 else if d = '\x7d' then some (objInsert acc k v, r4)
                 else none
               | [] => none
           else none) := rfl

theorem parseMembers_other (f : Nat) (c : Char) (cs2 : List Char)
    (acc : List (String × Json)) (hc : ¬c = '"') :
    parseMembers (f + 1) (c :: cs2) acc = none := by
  rw [parseMembers.eq_def]
  simp [hc]

theorem parseMembers_nil (f : Nat) (acc : List (String × Json)) :
    parseMembers (f + 1) [] acc = none := rfl

theorem parseElems_zero (cs : List Char) (acc : List Json) :
    parseElems 0 cs acc = none := rfl

theorem parseElems_succ (f : Nat) (cs : List Char) (acc : List Json) :
    parseElems (f + 1) cs acc =
      (match parseVal f cs with
       | none => none
       | some (v, r1) =>
         match skipWs r1 with
         | d :: r2 =>
           if d = ',' then parseElems f (skipWs r2) (acc ++ [v])
           else if d = ']' then some (acc ++ [v], r2)
           else none
         | [] => none) := rfl

theorem skipWs_append_cons (xs : List Char) (c : Char) (r t : List Char)
    (h : skipWs xs = c :: r) : skipWs (xs ++ t) = c :: (r ++ t) := by
  induction xs with
  | nil => simp [skipWs] at h
  | cons x xs ih =>
    by_cases hx : isJsonWs x
    · simp [skipWs, hx] at h ⊢
      exact ih h
    · simp [skipWs, hx] at h ⊢
      exact ⟨h.1, by simp [h.2]⟩

theorem skipWs_append_nil (xs t : List Char) (h : skipWs xs = []) :
    skipWs (xs ++ t) = skipWs t := by
  induction xs with
  | nil => rfl
  | cons x xs ih =>
    by_cases hx : isJsonWs x
    · simp [skipWs, hx] at h ⊢
      exact ih h
    · simp [skipWs, hx] at h

theorem headHardStop_of_skipWs (cs : List Char) (d : Char) (r : List Char)
    (h : skipWs cs = d :: r) (hd : hardStop d = true) : headHardStop cs = true := by
  cases cs with
  | nil => simp [skipWs] at h
  | cons c cs2 =>
    by_cases hc : isJsonWs c
    · simp [headHardStop, hardStop, hc]
    · simp [skipWs, hc] at h
      simp [headHardStop, h.1, hd]

theorem scanStr_append (cs : List Char) (out : String) (s : String) (r t : List Char)
    (h : scanStr cs out = some (s, r)) : scanStr (cs ++ t) out = some (s, r ++ t) := by
  induction cs, out using scanStr.induct with
  | case1 out => simp [scanStr] at h
  | case2 cs out =>
    simp [scanStr] at h ⊢
    simp [h]
  | case3 out => simp [scanStr] at h
  | case4 out a b c d cs2 va vb vc vd hd4 hc3 hb2 ha1 ih =>
    simp only [scanStr, if_pos rfl, ha1, hb2, hc3, hd4, List.cons_append] at h ⊢
    exact ih h
  | case5 out a b c d cs2 hfail =>
    rw [scanStr.eq_def] at h
    rcases ha : hexVal a with _ | va
    · simp [ha] at h
    · rcases hb : hexVal b with _ | vb
      · simp [ha, hb] at h
      · rcases hc : hexVal c with _ | vc
        · simp [ha, hb, hc] at h
        · rcases hd : hexVal d with _ | vd
          · simp [ha, hb, hc, hd] at h
          · exact (hfail va vb vc vd ha hb hc hd).elim
  | case6 cs out hshort =>
    rcases cs with _ | ⟨a, _ | ⟨b, _ | ⟨c, _ | ⟨d, cs2⟩⟩⟩⟩
    · simp [scanStr] at h
    · simp [scanStr] at h
    · simp [scanStr] at h
    · simp [scanStr] at h
    · exact (hshort a b c d cs2 rfl).elim
  | case7 e cs out hne ec hec ih =>
    rw [scanStr.eq_def] at h
    simp only [if_neg hne, hec] at h
    rw [List.cons_append, List.cons_append, scanStr.eq_def]
    simp only [if_neg hne, hec]
    exact ih h
  | case8 e cs out hne hec =>
    rw [scanStr.eq_def] at h
    simp only [if_neg hne, hec] at h
    simp at h
  | case9 c cs out hq hb1 hb2 hctl =>
    have hcq : ¬ c = '"' := fun hh => hq hh
    have hcb : ¬ c = '\\' := by
      intro hh
      cases cs with
      | nil => exact hb1 hh rfl
      | cons e cs1 => exact hb2 e cs1 hh rfl
    rw [scanStr.eq_def] at h
    simp [hcq, hcb, hctl] at h
  | case10 c cs out hq hb1 hb2 hctl ih =>
    have hcq : ¬ c = '"' := fun hh => hq hh
    have hcb : ¬ c = '\\' := by
      intro hh
      cases cs with
      | nil => exact hb1 hh rfl
      | cons e cs1 => exact hb2 e cs1 hh rfl
    rw [scanStr.eq_def] at h
    simp [hcq, hcb, hctl] at h
    rw [List.cons_append, scanStr.eq_def]
    simp [hcq, hcb, hctl]
    exact ih h

theorem takeDigits_append (cs ds r t : List Char)
    (h : takeDigits cs = (ds, r)) (hne : r ≠ []) :
    takeDigits (cs ++ t) = (ds, r ++ t) := by
  induction cs generalizing ds with
  | nil =>
    simp [takeDigits] at h
    exact absurd h.2 hne
  | cons c cs2 ih =>
    by_cases hc : c.isDigit
    · rcases hp : takeDigits cs2 with ⟨ds2, r2⟩
      simp [takeDigits, hc, hp] at h ⊢
      obtain ⟨h1, h2⟩ := h
      subst h2
      rw [ih ds2 hp]
      simp [← h1]
    · simp [takeDigits, hc] at h ⊢
      obtain ⟨h1, h2⟩ := h
      simp [← h1, ← h2, takeDigits, hc]

theorem numFrac_append (cs t : List Char)
    (hr : headStopOrExp (numFrac cs).2 = true) :
    numFrac (cs ++ t) = ((numFrac cs).1, (numFrac cs).2 ++ t) := by
  rcases cs with _ | ⟨c0, _ | ⟨c1, r0⟩⟩
  · simp [numFrac, headStopOrExp] at hr
  · have heq : numFrac [c0] = ([], [c0]) := by
      rw [numFrac.eq_def]
      by_cases hh : c0 = '.' <;> simp [hh]
    rw [heq] at hr ⊢
    have hc0 : ¬ c0 = '.' := by
      intro hh
      subst hh
      simp [headStopOrExp, hardStop, isJsonWs] at hr
    show numFrac (c0 :: t) = ([], c0 :: t)
    rcases t with _ | ⟨t0, t1⟩
    · exact heq
    · rw [numFrac.eq_def]
      simp [hc0]
  · by_cases hc0 : c0 = '.'
    · subst hc0
      by_cases hd1 : c1.isDigit
      · have heq : numFrac ('.' :: c1 :: r0) =
            ('.' :: (takeDigits (c1 :: r0)).1, (takeDigits (c1 :: r0)).2) := by
          rw [numFrac.eq_def]
          simp [hd1]
        rw [heq] at hr ⊢
        have hrne : (takeDigits (c1 :: r0)).2 ≠ [] := by
          intro hh
          rw [hh] at hr
          simp [headStopOrExp] at hr
        have htd := takeDigits_append (c1 :: r0) (takeDigits (c1 :: r0)).1
          (takeDigits (c1 :: r0)).2 t rfl hrne
        show numFrac ('.' :: c1 :: (r0 ++ t)) = _
        rw [numFrac.eq_def]
        simp only [hd1, if_pos]
        rw [show (c1 :: (r0 ++ t)) = ((c1 :: r0) ++ t) from rfl, htd]
      · have heq : numFrac ('.' :: c1 :: r0) = ([], '.' :: c1 :: r0) := by
          rw [numFrac.eq_def]
          simp [hd1]
        rw [heq] at hr
        simp [headStopOrExp, hardStop, isJsonWs] at hr
    · have heq : ∀ u, numFrac (c0 :: c1 :: u) = ([], c0 :: c1 :: u) := by
        intro u
        rw [numFrac.eq_def]
        simp [hc0]
      rw [show ((c0 :: c1 :: r0) ++ t) = c0 :: c1 :: (r0 ++ t) from rfl,
        heq (r0 ++ t), heq r0]
      rfl

theorem numExp_append (cs t : List Char)
    (hr : headHardStop (numExp cs).2 = true) :
    numExp (cs ++ t) = ((numExp cs).1, (numExp cs).2 ++ t) := by
  rcases cs with _ | ⟨e0, rest⟩
  · simp [numExp, headHardStop] at hr
  · by_cases he : e0 = 'e' ∨ e0 = 'E'
    · rcases rest with _ | ⟨s0, r2⟩
      · have heq : numExp [e0] = ([], [e0]) := by
          rw [numExp.eq_def]
          simp [he]
        rw [heq] at hr
        rcases he with he | he <;> subst he <;>
          simp [headHardStop, hardStop, isJsonWs] at hr
      · by_cases hs : s0 = '+' ∨ s0 = '-'
        · rcases r2 with _ | ⟨d0, r3⟩
          · have heq : numExp [e0, s0] = ([], [e0, s0]) := by
              rw [numExp.eq_def]
              simp [he, hs]
            rw [heq] at hr
            rcases he with he | he <;> subst he <;>
              simp [headHardStop, hardStop, isJsonWs] at hr
          · by_cases hd : d0.isDigit
            · have heq : numExp (e0 :: s0 :: d0 :: r3) =
                  (e0 :: s0 :: (takeDigits (d0 :: r3)).1, (takeDigits (d0 :: r3)).2) := by
                rw [numExp.eq_def]
                simp [he, hs, hd]
              rw [heq] at hr ⊢
              have hne : (takeDigits (d0 :: r3)).2 ≠ [] := by
                intro hh
                rw [hh] at hr
                simp [headHardStop] at hr
              have htd := takeDigits_append (d0 :: r3) (takeDigits (d0 :: r3)).1
                (takeDigits (d0 :: r3)).2 t rfl hne
              show numExp (e0 :: s0 :: ((d0 :: r3) ++ t)) = _
              rw [numExp.eq_def]
              simp only [he, hs, hd, if_pos, ite_true]
              rw [List.cons_append]
              dsimp only
              simp only [hd, ite_true]
              rw [show (d0 :: (r3 ++ t)) = ((d0 :: r3) ++ t) from rfl, htd]
            · have heq : numExp (e0 :: s0 :: d0 :: r3) = ([], e0 :: s0 :: d0 :: r3) := by
                rw [numExp.eq_def]
                simp [he, hs, hd]
              rw [heq] at hr
              rcases he with he | he <;> subst he <;>
                simp [headHardStop, hardStop, isJsonWs] at hr
        · by_cases hsd : s0.isDigit
          · have heq : numExp (e0 :: s0 :: r2) =
                (e0 :: (takeDigits (s0 :: r2)).1, (takeDigits (s0 :: r2)).2) := by
              rw [numExp.eq_def]
              simp [he, hs, hsd]
            rw [heq] at hr ⊢
            have hne : (takeDigits (s0 :: r2)).2 ≠ [] := by
              intro hh
              rw [hh] at hr
              simp [headHardStop] at hr
            have htd := takeDigits_append (s0 :: r2) (takeDigits (s0 :: r2)).1
              (takeDigits (s0 :: r2)).2 t rfl hne
            show numExp (e0 :: ((s0 :: r2) ++ t)) = _
            rw [numExp.eq_def]
            simp only [he, hs, hsd, if_pos, ite_true, ite_false]
            rw [List.cons_append]
            dsimp only
            simp only [hs, hsd, ite_true, ite_false]
            rw [show (s0 :: (r2 ++ t)) = ((s0 :: r2) ++ t) from rfl, htd]
          · have heq : numExp (e0 :: s0 :: r2) = ([], e0 :: s0 :: r2) := by
              rw [numExp.eq_def]
              simp [he, hs, hsd]
            rw [heq] at hr
            rcases he with he | he <;> subst he <;>
              simp [headHardStop, hardStop, isJsonWs] at hr
    · have heq : ∀ u, numExp (e0 :: u) = ([], e0 :: u) := by
        intro u
        rw [numExp.eq_def]
        simp [he]
      rw [show ((e0 :: rest) ++ t) = e0 :: (rest ++ t) from rfl, heq (rest ++ t), heq rest]
      rfl

theorem numExp_restHead (cs : List Char)
    (hr : headHardStop (numExp cs).2 = true) : headStopOrExp cs = true := by
  rcases cs with _ | ⟨e0, rest⟩
  · simp [numExp, headHardStop] at hr
  · by_cases he : e0 = 'e' ∨ e0 = 'E'
    · rcases he with he | he <;> subst he <;> simp [headStopOrExp]
    · have heq : numExp (e0 :: rest) = ([], e0 :: rest) := by
        rw [numExp.eq_def]
        simp [he]
      rw [heq] at hr
      simp [headHardStop] at hr
      simp [headStopOrExp, hr]

theorem scanNumTail_append (sgn r1 t : List Char) (lex : String) (r : List Char)
    (h : scanNumTail sgn r1 = some (lex, r)) (hr : headHardStop r = true) :
    scanNumTail sgn (r1 ++ t) = some (lex, r ++ t) := by
  rcases r1 with _ | ⟨c0, r2⟩
  · simp [scanNumTail] at h
  · by_cases h0 : c0 = '0'
    · subst h0
      rw [scanNumTail] at h
      simp only [if_true, ite_true, Option.some.injEq, Prod.mk.injEq] at h
      obtain ⟨h1, h2⟩ := h
      subst h2
      have hstop := numExp_restHead (numFrac r2).2 hr
      have hf := numFrac_append r2 t hstop
      have he := numExp_append (numFrac r2).2 t hr
      rw [List.cons_append, scanNumTail]
      simp only [if_true, ite_true, hf, he]
      simp [← h1]
    · by_cases hdig : c0.isDigit
      · rw [scanNumTail] at h
        simp only [if_neg h0, if_pos hdig, ite_true, ite_false,
          Option.some.injEq, Prod.mk.injEq] at h
        obtain ⟨h1, h2⟩ := h
        subst h2
        have hstop := numExp_restHead (numFrac (takeDigits (c0 :: r2)).2).2 hr
        have hdne : (takeDigits (c0 :: r2)).2 ≠ [] := by
          intro hh
          rw [hh] at hstop hr
          simp [numFrac, numExp, headHardStop] at hr
        have htd := takeDigits_append (c0 :: r2) (takeDigits (c0 :: r2)).1
          (takeDigits (c0 :: r2)).2 t rfl hdne
        have hf := numFrac_append (takeDigits (c0 :: r2)).2 t hstop
        have he := numExp_append (numFrac (takeDigits (c0 :: r2)).2).2 t hr
        rw [List.cons_append, scanNumTail]
        simp only [if_neg h0, if_pos hdig, ite_true, ite_false]
        rw [show (c0 :: (r2 ++ t)) = ((c0 :: r2) ++ t) from rfl, htd]
        simp only [hf, he]
        simp [← h1]
      · rw [scanNumTail] at h
        simp [h0, hdig] at h

theorem scanNumber_append (cs t : List Char) (lex : String) (r : List Char)
    (h : scanNumber cs = some (lex, r)) (hr : headHardStop r = true) :
    scanNumber (cs ++ t) = some (lex, r ++ t) := by
  rcases cs with _ | ⟨c0, r0⟩
  · simp [scanNumber, scanNumTail] at h
  · by_cases hm : c0 = '-'
    · subst hm
      rw [scanNumber.eq_def] at h
      rw [List.cons_append, scanNumber.eq_def]
      exact scanNumTail_append _ _ _ _ _ h hr
    · have he1 : scanNumber (c0 :: r0) = scanNumTail [] (c0 :: r0) := by
        rw [scanNumber.eq_def]
        rcases r0 with _ | ⟨x, xs⟩ <;> simp [hm]
      have he2 : scanNumber ((c0 :: r0) ++ t) = scanNumTail [] ((c0 :: r0) ++ t) := by
        rw [scanNumber.eq_def]
        rcases r0 with _ | ⟨x, xs⟩ <;> simp [hm]
      rw [he1] at h
      rw [he2]
      exact scanNumTail_append _ _ _ _ _ h hr

/-- Adding fuel preserves successful parses (joint statement for values,
object members and array elements). -/
theorem parse_mono (f : Nat) :
    (∀ cs v rest, parseVal f cs = some (v, rest) →
      parseVal (f + 1) cs = some (v, rest)) ∧
    (∀ cs acc m rest, parseMembers f cs acc = some (m, rest) →
      parseMembers (f + 1) cs acc = some (m, rest)) ∧
    (∀ cs acc l rest, parseElems f cs acc = some (l, rest) →
      parseElems (f + 1) cs acc = some (l, rest)) := by
  induction f with
  | zero =>
    refine ⟨?_, ?_, ?_⟩ <;> intro cs
    · intro v rest h
      simp [parseVal_zero] at h
    · intro acc m rest h
      simp [parseMembers_zero] at h
    · intro acc l rest h
      simp [parseElems_zero] at h
  | succ f ih =>
    obtain ⟨ihv, ihm, ihe⟩ := ih
    refine ⟨?_, ?_, ?_⟩
    · intro cs v rest h
      rcases cs with _ | ⟨c, cs2⟩
      · simp [parseVal_nil] at h
      · by_cases h1 : c = '\x7b'
        · subst h1
          rw [parseVal_brace] at h ⊢
          rcases hsw : skipWs cs2 with _ | ⟨d, r2⟩ <;> (try rw [hsw] at h) <;> (try rw [hsw]) <;> (try dsimp only at h ⊢)
          · exact h
          · by_cases hd : d = '\x7d'
            · rw [if_pos hd] at h ⊢
              exact h
            · rw [if_neg hd] at h ⊢
              rcases hpm : parseMembers f (d :: r2) [] with _ | ⟨m2, r3⟩ <;> (try rw [hpm] at h) <;> (try rw [hpm]) <;> (try dsimp only at h ⊢)
              · simp at h
              · rw [ihm _ _ _ _ hpm]
                exact h
        · by_cases h2 : c = '['
          · subst h2
            rw [parseVal_brack] at h ⊢
            rcases hsw : skipWs cs2 with _ | ⟨d, r2⟩ <;> (try rw [hsw] at h) <;> (try rw [hsw]) <;> (try dsimp only at h ⊢)
            · exact h
            · by_cases hd : d = ']'
              · rw [if_pos hd] at h ⊢
                exact h
              · rw [if_neg hd] at h ⊢
                rcases hpe : parseElems f (d :: r2) [] with _ | ⟨l2, r3⟩ <;> (try rw [hpe] at h) <;> (try rw [hpe]) <;> (try dsimp only at h ⊢)
                · simp at h
                · rw [ihe _ _ _ _ hpe]
                  exact h
          · by_cases h3 : c = '"'
            · subst h3
              rw [parseVal_quote] at h ⊢
              exact h
            · by_cases h4 : c = 't'
              · subst h4
                rw [parseVal_tchar] at h ⊢
                exact h
              · by_cases h5 : c = 'f'
                · subst h5
                  rw [parseVal_fchar] at h ⊢
                  exact h
                · by_cases h6 : c = 'n'
                  · subst h6
                    rw [parseVal_nchar] at h ⊢
                    exact h
                  · by_cases h7 : c = 'N'
                    · subst h7
                      rw [parseVal_nanchar] at h ⊢
                      exact h
                    · by_cases h8 : c = 'I'
                      · subst h8
                        rw [parseVal_infchar] at h ⊢
                        exact h
                      · by_cases h9 : c = '-'
                        · subst h9
                          rw [parseVal_minus] at h ⊢
                          exact h
                        · rw [parseVal_other f c cs2 h1 h2 h3 h4 h5 h6 h7 h8 h9] at h
                          rw [parseVal_other (f + 1) c cs2 h1 h2 h3 h4 h5 h6 h7 h8 h9]
                          exact h
    · intro cs acc m rest h
      rcases cs with _ | ⟨c, cs2⟩
      · simp [parseMembers_nil] at h
      · by_cases hc : c = '"'
        · subst hc
          rw [parseMembers_quote] at h ⊢
          rcases hss : scanStr cs2 "" with _ | ⟨k, r1⟩ <;> (try rw [hss] at h) <;> (try rw [hss]) <;> (try dsimp only at h ⊢)
          · exact h
          · rcases hsw : skipWs r1 with _ | ⟨d1, r2⟩ <;> (try rw [hsw] at h) <;> (try rw [hsw]) <;> (try dsimp only at h ⊢)
            · exact h
            · by_cases hd1 : d1 = ':'
              · rw [if_pos hd1] at h ⊢
                rcases hpv : parseVal f (skipWs r2) with _ | ⟨v, r3⟩ <;> (try rw [hpv] at h) <;> (try rw [hpv]) <;> (try dsimp only at h ⊢)
                · simp at h
                · rw [ihv _ _ _ hpv]
                  dsimp only
                  rcases hsw3 : skipWs r3 with _ | ⟨d2, r4⟩ <;> (try rw [hsw3] at h) <;> (try rw [hsw3]) <;> (try dsimp only at h ⊢)
                  · exact h
                  · by_cases hd2 : d2 = ','
                    · rw [if_pos hd2] at h ⊢
                      rcases hpm : parseMembers f (skipWs r4) (objInsert acc k v) with
                        _ | ⟨m2, r5⟩ <;> (try rw [hpm] at h) <;> (try rw [hpm]) <;> (try dsimp only at h ⊢) <;> (try rw [hpm] at h) <;> (try rw [hpm]) <;> (try dsimp only at h ⊢)
                      · simp at h
                      · rw [ihm _ _ _ _ hpm]
                        exact h
                    · rw [if_neg hd2] at h ⊢
                      exact h
              · rw [if_neg hd1] at h ⊢
                exact h
        · rw [parseMembers_other f c cs2 acc hc] at h
          simp at h
    · intro cs acc l rest h
      rw [parseElems_succ] at h ⊢
      rcases hpv : parseVal f cs with _ | ⟨v, r1⟩ <;> (try rw [hpv] at h) <;> (try rw [hpv]) <;> (try dsimp only at h ⊢)
      · simp at h
      · rw [ihv _ _ _ hpv]
        dsimp only
        rcases hsw : skipWs r1 with _ | ⟨d, r2⟩ <;> (try rw [hsw] at h) <;> (try rw [hsw]) <;> (try dsimp only at h ⊢)
        · exact h
        · by_cases hd : d = ','
          · rw [if_pos hd] at h ⊢
            rcases hpe : parseElems f (skipWs r2) (acc ++ [v]) with _ | ⟨l2, r3⟩ <;> (try rw [hpe] at h) <;> (try rw [hpe]) <;> (try dsimp only at h ⊢)
            · simp at h
            · rw [ihe _ _ _ _ hpe]
              exact h
          · rw [if_neg hd] at h ⊢
            exact h

/-- A successful minus-led number scan starts with a character other than
the I of -Infinity. -/
theorem scanNumber_minus_head (rest : List Char) (p : String × List Char)
    (h : scanNumber ('-' :: rest) = some p) :
    ∃ c1 r1, rest = c1 :: r1 ∧ ¬c1 = 'I' := by
  rcases rest with _ | ⟨c1, r1⟩
  · simp [scanNumber, scanNumTail] at h
  · refine ⟨c1, r1, rfl, ?_⟩
    intro hI
    subst hI
    rw [show scanNumber ('-' :: 'I' :: r1) = scanNumTail ['-'] ('I' :: r1) from rfl,
      scanNumTail] at h
    rw [if_neg (by decide), if_neg (by decide)] at h
    exact Option.noConfusion h

/-- parseVal on a minus not followed by Infinity is number scanning. -/
theorem parseVal_minus_notI (f : Nat) (c1 : Char) (r1 : List Char) (hI : ¬c1 = 'I') :
    parseVal (f + 1) ('-' :: c1 :: r1) =
      (match scanNumber ('-' :: c1 :: r1) with
       | some (lex, r2) => some (.num lex, r2)
       | none => none) := by
  rw [parseVal_minus]
  rcases r1 with _ | ⟨c2, r1⟩
  · rfl
  rcases r1 with _ | ⟨c3, r1⟩
  · rfl
  rcases r1 with _ | ⟨c4, r1⟩
  · rfl
  rcases r1 with _ | ⟨c5, r1⟩
  · rfl
  rcases r1 with _ | ⟨c6, r1⟩
  · rfl
  rcases r1 with _ | ⟨c7, r1⟩
  · rfl
  rcases r1 with _ | ⟨c8, r1⟩
  · rfl
  exact if_neg (fun hand => hI hand.1)

/-- Appending input after a parsed string value leaves the parse intact. -/
theorem parseVal_quote_append (f : Nat) (cs2 t : List Char) (v : Json)
    (rest : List Char) (h : parseVal (f + 1) ('"' :: cs2) = some (v, rest)) :
    parseVal (f + 1) (('"' :: cs2) ++ t) = some (v, rest ++ t) := by
  rw [parseVal_quote] at h
  rw [List.cons_append, parseVal_quote]
  rcases hss : scanStr cs2 "" with _ | ⟨s, r⟩
  · rw [hss] at h
    exact Option.noConfusion h
  · rw [hss] at h
    rw [scanStr_append cs2 "" s r t hss]
    dsimp only at h ⊢
    simp only [Option.some.injEq, Prod.mk.injEq] at h
    rw [← h.1, ← h.2]

/-- Appending input after a parsed true literal leaves the parse intact. -/
theorem parseVal_tchar_append (f : Nat) (cs2 t : List Char) (v : Json)
    (rest : List Char) (h : parseVal (f + 1) ('t' :: cs2) = some (v, rest)) :
    parseVal (f + 1) (('t' :: cs2) ++ t) = some (v, rest ++ t) := by
  rw [parseVal_tchar] at h
  rw [List.cons_append, parseVal_tchar]
  rcases cs2 with _ | ⟨c1, cs2⟩
  · exact Option.noConfusion h
  rcases cs2 with _ | ⟨c2, cs2⟩
  · exact Option.noConfusion h
  rcases cs2 with _ | ⟨c3, r⟩
  · exact Option.noConfusion h
  simp only [List.cons_append]
  dsimp only at h ⊢
  by_cases hcond : c1 = 'r' ∧ c2 = 'u' ∧ c3 = 'e'
  · rw [if_pos hcond] at h ⊢
    simp only [Option.some.injEq, Prod.mk.injEq] at h
    rw [← h.1, ← h.2]
  · rw [if_neg hcond] at h
    exact Option.noConfusion h

/-- Appending input after a parsed false literal leaves the parse intact. -/
theorem parseVal_fchar_append (f : Nat) (cs2 t : List Char) (v : Json)
    (rest : List Char) (h : parseVal (f + 1) ('f' :: cs2) = some (v, rest)) :
    parseVal (f + 1) (('f' :: cs2) ++ t) = some (v, rest ++ t) := by
  rw [parseVal_fchar] at h
  rw [List.cons_append, parseVal_fchar]
  rcases cs2 with _ | ⟨c1, cs2⟩
  · exact Option.noConfusion h
  rcases cs2 with _ | ⟨c2, cs2⟩
  · exact Option.noConfusion h
  rcases cs2 with _ | ⟨c3, cs2⟩
  · exact Option.noConfusion h
  rcases cs2 with _ | ⟨c4, r⟩
  · exact Option.noConfusion h
  simp only [List.cons_append]
  dsimp only at h ⊢
  by_cases hcond : c1 = 'a' ∧ c2 = 'l' ∧ c3 = 's' ∧ c4 = 'e'
  · rw [if_pos hcond] at h ⊢
    simp only [Option.some.injEq, Prod.mk.injEq] at h
    rw [← h.1, ← h.2]
  · rw [if_neg hcond] at h
    exact Option.noConfusion h

/-- Appending input after a parsed null literal leaves the parse intact. -/
theorem parseVal_nchar_append (f : Nat) (cs2 t : List Char) (v : Json)
    (rest : List Char) (h : parseVal (f + 1) ('n' :: cs2) = some (v, rest)) :
    parseVal (f + 1) (('n' :: cs2) ++ t) = some (v, rest ++ t) := by
  rw [parseVal_nchar] at h
  rw [List.cons_append, parseVal_nchar]
  rcases cs2 with _ | ⟨c1, cs2⟩
  · exact Option.noConfusion h
  rcases cs2 with _ | ⟨c2, cs2⟩
  · exact Option.noConfusion h
  rcases cs2 with _ | ⟨c3, r⟩
  · exact Option.noConfusion h
  simp only [List.cons_append]
  dsimp only at h ⊢
  by_cases hcond : c1 = 'u' ∧ c2 = 'l' ∧ c3 = 'l'
  · rw [if_pos hcond] at h ⊢
    simp only [Option.some.injEq, Prod.mk.injEq] at h
    rw [← h.1, ← h.2]
  · rw [if_neg hcond] at h
    exact Option.noConfusion h

/-- Appending input after a parsed NaN literal leaves the parse intact. -/
theorem parseVal_nanchar_append (f : Nat) (cs2 t : List Char) (v : Json)
    (rest : List Char) (h : parseVal (f + 1) ('N' :: cs2) = some (v, rest)) :
    parseVal (f + 1) (('N' :: cs2) ++ t) = some (v, rest ++ t) := by
  rw [parseVal_nanchar] at h
  rw [List.cons_append, parseVal_nanchar]
  rcases cs2 with _ | ⟨c1, cs2⟩
  · exact Option.noConfusion h
  rcases cs2 with _ | ⟨c2, r⟩
  · exact Option.noConfusion h
  simp only [List.cons_append]
  dsimp only at h ⊢
  by_cases hcond : c1 = 'a' ∧ c2 = 'N'
  · rw [if_pos hcond] at h ⊢
    simp only [Option.some.injEq, Prod.mk.injEq] at h
    rw [← h.1, ← h.2]
  · rw [if_neg hcond] at h
    exact Option.noConfusion h

/-- Appending input after a parsed Infinity literal leaves the parse
intact. -/
theorem parseVal_infchar_append (f : Nat) (cs2 t : List Char) (v : Json)
    (rest : List Char) (h : parseVal (f + 1) ('I' :: cs2) = some (v, rest)) :
    parseVal (f + 1) (('I' :: cs2) ++ t) = some (v, rest ++ t) := by
  rw [parseVal_infchar] at h
  rw [List.cons_append, parseVal_infchar]
  rcases cs2 with _ | ⟨c1, cs2⟩
  · exact Option.noConfusion h
  rcases cs2 with _ | ⟨c2, cs2⟩
  · exact Option.noConfusion h
  rcases cs2 with _ | ⟨c3, cs2⟩
  · exact Option.noConfusion h
  rcases cs2 with _ | ⟨c4, cs2⟩
  · exact Option.noConfusion h
  rcases cs2 with _ | ⟨c5, cs2⟩
  · exact Option.noConfusion h
  rcases cs2 with _ | ⟨c6, cs2⟩
  · exact Option.noConfusion h
  rcases cs2 with _ | ⟨c7, r⟩
  · exact Option.noConfusion h
  simp only [List.cons_append]
  dsimp only at h ⊢
  by_cases hcond : c1 = 'n' ∧ c2 = 'f' ∧ c3 = 'i' ∧ c4 = 'n' ∧ c5 = 'i' ∧
      c6 = 't' ∧ c7 = 'y'
  · rw [if_pos hcond] at h ⊢
    simp only [Option.some.injEq, Prod.mk.injEq] at h
    rw [← h.1, ← h.2]
  · rw [if_neg hcond] at h
    exact Option.noConfusion h

/-- A number scan cannot start with minus followed by I. -/
theorem scanNumber_minusI (r : List Char) : scanNumber ('-' :: 'I' :: r) = none := by
  rw [show scanNumber ('-' :: 'I' :: r) = scanNumTail ['-'] ('I' :: r) from rfl,
    scanNumTail]
  rw [if_neg (by decide), if_neg (by decide)]

/-- Appending input after a minus-led value (a -Infinity literal or a
negative number) leaves the parse intact, provided a number is followed
by a stopping character. -/
theorem parseVal_minus_append (f : Nat) (cs2 t : List Char) (v : Json)
    (rest : List Char) (h : parseVal (f + 1) ('-' :: cs2) = some (v, rest))
    (hside : jIsNum v = false ∨ headHardStop rest = true) :
    parseVal (f + 1) (('-' :: cs2) ++ t) = some (v, rest ++ t) := by
  rcases cs2 with _ | ⟨c1, r1⟩
  · rw [parseVal_minus] at h
    simp only [scanNumber_minusI] at h
    rw [show scanNumber ['-'] = none from rfl] at h
    exact Option.noConfusion h
  by_cases hI : c1 = 'I'
  · subst hI
    rcases r1 with _ | ⟨c2, r1⟩
    · rw [parseVal_minus] at h
      simp only [scanNumber_minusI] at h
      exact Option.noConfusion h
    rcases r1 with _ | ⟨c3, r1⟩
    · rw [parseVal_minus] at h
      simp only [scanNumber_minusI] at h
      exact Option.noConfusion h
    rcases r1 with _ | ⟨c4, r1⟩
    · rw [parseVal_minus] at h
      simp only [scanNumber_minusI] at h
      exact Option.noConfusion h
    rcases r1 with _ | ⟨c5, r1⟩
    · rw [parseVal_minus] at h
      simp only [scanNumber_minusI] at h
      exact Option.noConfusion h
    rcases r1 with _ | ⟨c6, r1⟩
    · rw [parseVal_minus] at h
      simp only [scanNumber_minusI] at h
      exact Option.noConfusion h
    rcases r1 with _ | ⟨c7, r1⟩
    · rw [parseVal_minus] at h
      simp only [scanNumber_minusI] at h
      exact Option.noConfusion h
    rcases r1 with _ | ⟨c8, r⟩
    · rw [parseVal_minus] at h
      simp only [scanNumber_minusI] at h
      exact Option.noConfusion h
    rw [parseVal_minus] at h
    simp only [List.cons_append]
    rw [parseVal_minus]
    dsimp only at h ⊢
    by_cases hcond : ('I' : Char) = 'I' ∧ c2 = 'n' ∧ c3 = 'f' ∧ c4 = 'i' ∧
        c5 = 'n' ∧ c6 = 'i' ∧ c7 = 't' ∧ c8 = 'y'
    · rw [if_pos hcond] at h ⊢
      simp only [Option.some.injEq, Prod.mk.injEq] at h
      rw [← h.1, ← h.2]
    · rw [if_neg hcond] at h
      simp only [scanNumber_minusI] at h
      exact Option.noConfusion h
  · rw [parseVal_minus_notI f c1 r1 hI] at h
    simp only [List.cons_append]
    rw [parseVal_minus_notI f c1 (r1 ++ t) hI]
    rcases hsn : scanNumber ('-' :: c1 :: r1) with _ | ⟨lex, r2⟩
    · rw [hsn] at h
      exact Option.noConfusion h
    · rw [hsn] at h
      dsimp only at h
      simp only [Option.some.injEq, Prod.mk.injEq] at h
      have hstop : headHardStop r2 = true := by
        rcases hside with hside | hside
        · rw [← h.1] at hside
          exact absurd hside (by simp [jIsNum])
        · rw [← h.2] at hside
          exact hside
      rw [show (('-' : Char) :: c1 :: (r1 ++ t)) = (('-' :: c1 :: r1) ++ t) from rfl]
      rw [scanNumber_append ('-' :: c1 :: r1) t lex r2 hsn hstop]
      dsimp only
      rw [← h.1, ← h.2]

/-- Appending input after a parsed number (default head character) leaves
the parse intact when a stopping character follows the number. -/
theorem parseVal_other_append (f : Nat) (c : Char) (cs2 t : List Char) (v : Json)
    (rest : List Char)
    (h1 : ¬c = '\x7b') (h2 : ¬c = '[') (h3 : ¬c = '"') (h4 : ¬c = 't')
    (h5 : ¬c = 'f') (h6 : ¬c = 'n') (h7 : ¬c = 'N') (h8 : ¬c = 'I')
    (h9 : ¬c = '-')
    (h : parseVal (f + 1) (c :: cs2) = some (v, rest))
    (hside : jIsNum v = false ∨ headHardStop rest = true) :
    parseVal (f + 1) ((c :: cs2) ++ t) = some (v, rest ++ t) := by
  rw [parseVal_other f c cs2 h1 h2 h3 h4 h5 h6 h7 h8 h9] at h
  rw [List.cons_append, parseVal_other f c (cs2 ++ t) h1 h2 h3 h4 h5 h6 h7 h8 h9]
  rcases hsn : scanNumber (c :: cs2) with _ | ⟨lex, r2⟩
  · rw [hsn] at h
    exact Option.noConfusion h
  · rw [hsn] at h
    dsimp only at h
    simp only [Option.some.injEq, Prod.mk.injEq] at h
    have hstop : headHardStop r2 = true := by
      rcases hside with hside | hside
      · rw [← h.1] at hside
        exact absurd hside (by simp [jIsNum])
      · rw [← h.2] at hside
        exact hside
    rw [show (c :: (cs2 ++ t)) = ((c :: cs2) ++ t) from rfl]
    rw [scanNumber_append (c :: cs2) t lex r2 hsn hstop]
    dsimp only
    rw [← h.1, ← h.2]

/-- parseVal yields none on empty input for every fuel. -/
theorem parseVal_nil_any (f : Nat) : parseVal f [] = none := by
  cases f <;> rfl

/-- parseMembers yields none on empty input for every fuel. -/
theorem parseMembers_nil_any (f : Nat) (acc : List (String × Json)) :
    parseMembers f [] acc = none := by
  cases f <;> rfl

/-- parseElems yields none on empty input for every fuel. -/
theorem parseElems_nil_any (f : Nat) (acc : List Json) :
    parseElems f [] acc = none := by
  cases f with
  | zero => rfl
  | succ g => rw [parseElems_succ, parseVal_nil_any]

/-- Appending further input after a complete parse leaves the parse
intact, the appended text joining the rest; a parsed number additionally
needs a stopping character after it (joint statement for values, object
members and array elements). -/
theorem parse_append (f : Nat) :
    (∀ cs v rest t, parseVal f cs = some (v, rest) →
      (jIsNum v = false ∨ headHardStop rest = true) →
      parseVal f (cs ++ t) = some (v, rest ++ t)) ∧
    (∀ cs acc m rest t, parseMembers f cs acc = some (m, rest) →
      parseMembers f (cs ++ t) acc = some (m, rest ++ t)) ∧
    (∀ cs acc l rest t, parseElems f cs acc = some (l, rest) →
      parseElems f (cs ++ t) acc = some (l, rest ++ t)) := by
  induction f with
  | zero =>
    refine ⟨?_, ?_, ?_⟩
    · intro cs v rest t h hside
      rw [parseVal_zero] at h
      exact Option.noConfusion h
    · intro cs acc m rest t h
      rw [parseMembers_zero] at h
      exact Option.noConfusion h
    · intro cs acc l rest t h
      rw [parseElems_zero] at h
      exact Option.noConfusion h
  | succ f ih =>
    obtain ⟨ihv, ihm, ihe⟩ := ih
    refine ⟨?_, ?_, ?_⟩
    · intro cs v rest t h hside
      rcases cs with _ | ⟨c, cs2⟩
      · exact Option.noConfusion h
      by_cases h1 : c = '\x7b'
      · subst h1
        rw [parseVal_brace] at h
        rw [List.cons_append, parseVal_brace]
        rcases hsw : skipWs cs2 with _ | ⟨d, r2⟩
        · rw [hsw] at h
          exact Option.noConfusion h
        · rw [hsw] at h
          rw [skipWs_append_cons cs2 d r2 t hsw]
          (try dsimp only at h ⊢)
          by_cases hd : d = '\x7d'
          · rw [if_pos hd] at h ⊢
            simp only [Option.some.injEq, Prod.mk.injEq] at h
            rw [← h.1, ← h.2]
          · rw [if_neg hd] at h ⊢
            rcases hpm : parseMembers f (d :: r2) [] with _ | ⟨m, r3⟩
            · rw [hpm] at h
              exact Option.noConfusion h
            · rw [hpm] at h
              (try dsimp only at h)
              rw [show (d :: (r2 ++ t)) = ((d :: r2) ++ t) from rfl]
              rw [ihm (d :: r2) [] m r3 t hpm]
              (try dsimp only)
              simp only [Option.some.injEq, Prod.mk.injEq] at h
              rw [← h.1, ← h.2]
      by_cases h2 : c = '['
      · subst h2
        rw [parseVal_brack] at h
        rw [List.cons_append, parseVal_brack]
        rcases hsw : skipWs cs2 with _ | ⟨d, r2⟩
        · rw [hsw] at h
          exact Option.noConfusion h
        · rw [hsw] at h
          rw [skipWs_append_cons cs2 d r2 t hsw]
          (try dsimp only at h ⊢)
          by_cases hd : d = ']'
          · rw [if_pos hd] at h ⊢
            simp only [Option.some.injEq, Prod.mk.injEq] at h
            rw [← h.1, ← h.2]
          · rw [if_neg hd] at h ⊢
            rcases hpe : parseElems f (d :: r2) [] with _ | ⟨l, r3⟩
            · rw [hpe] at h
              exact Option.noConfusion h
            · rw [hpe] at h
              (try dsimp only at h)
              rw [show (d :: (r2 ++ t)) = ((d :: r2) ++ t) from rfl]
              rw [ihe (d :: r2) [] l r3 t hpe]
              (try dsimp only)
              simp only [Option.some.injEq, Prod.mk.injEq] at h
              rw [← h.1, ← h.2]
      by_cases h3 : c = '"'
      · subst h3
        exact parseVal_quote_append f cs2 t v rest h
      by_cases h4 : c = 't'
      · subst h4
        exact parseVal_tchar_append f cs2 t v rest h
      by_cases h5 : c = 'f'
      · subst h5
        exact parseVal_fchar_append f cs2 t v rest h
      by_cases h6 : c = 'n'
      · subst h6
        exact parseVal_nchar_append f cs2 t v rest h
      by_cases h7 : c = 'N'
      · subst h7
        exact parseVal_nanchar_append f cs2 t v rest h
      by_cases h8 : c = 'I'
      · subst h8
        exact parseVal_infchar_append f cs2 t v rest h
      by_cases h9 : c = '-'
      · subst h9
        exact parseVal_minus_append f cs2 t v rest h hside
      exact parseVal_other_append f c cs2 t v rest h1 h2 h3 h4 h5 h6 h7 h8 h9 h hside
    · intro cs acc m rest t h
      rcases cs with _ | ⟨c, cs2⟩
      · exact Option.noConfusion h
      by_cases hc : c = '"'
      · subst hc
        rw [parseMembers_quote] at h
        rw [List.cons_append, parseMembers_quote]
        rcases hss : scanStr cs2 "" with _ | ⟨k, r1⟩
        · rw [hss] at h
          exact Option.noConfusion h
        · rw [hss] at h
          rw [scanStr_append cs2 "" k r1 t hss]
          (try dsimp only at h ⊢)
          rcases hsw : skipWs r1 with _ | ⟨d1, r2⟩
          · rw [hsw] at h
            exact Option.noConfusion h
          · rw [hsw] at h
            rw [skipWs_append_cons r1 d1 r2 t hsw]
            (try dsimp only at h ⊢)
            by_cases hd1 : d1 = ':'
            · rw [if_pos hd1] at h ⊢
              rcases hpv : parseVal f (skipWs r2) with _ | ⟨v, r3⟩
              · rw [hpv] at h
                exact Option.noConfusion h
              · rw [hpv] at h
                (try dsimp only at h)
                rcases hsw2 : skipWs r2 with _ | ⟨e, r2b⟩
                · rw [hsw2, parseVal_nil_any] at hpv
                  exact Option.noConfusion hpv
                · rw [skipWs_append_cons r2 e r2b t hsw2]
                  rw [show e :: (r2b ++ t) = (e :: r2b) ++ t from rfl, ← hsw2]
                  rcases hsw3 : skipWs r3 with _ | ⟨d2, r4⟩
                  · rw [hsw3] at h
                    exact Option.noConfusion h
                  · rw [hsw3] at h
                    (try dsimp only at h)
                    by_cases hd2 : d2 = ','
                    · rw [if_pos hd2] at h
                      have hstop : headHardStop r3 = true :=
                        headHardStop_of_skipWs r3 d2 r4 hsw3 (by rw [hd2]; decide)
                      rw [ihv (skipWs r2) v r3 t hpv (Or.inr hstop)]
                      (try dsimp only)
                      rw [skipWs_append_cons r3 d2 r4 t hsw3]
                      (try dsimp only)
                      rw [if_pos hd2]
                      rcases hsw4 : skipWs r4 with _ | ⟨e2, r5⟩
                      · rw [hsw4, parseMembers_nil_any] at h
                        exact Option.noConfusion h
                      · rw [skipWs_append_cons r4 e2 r5 t hsw4]
                        rw [show e2 :: (r5 ++ t) = (e2 :: r5) ++ t from rfl, ← hsw4]
                        exact ihm (skipWs r4) (objInsert acc k v) m rest t h
                    · rw [if_neg hd2] at h
                      by_cases hd2b : d2 = '\x7d'
                      · rw [if_pos hd2b] at h
                        have hstop : headHardStop r3 = true :=
                          headHardStop_of_skipWs r3 d2 r4 hsw3 (by rw [hd2b]; decide)
                        rw [ihv (skipWs r2) v r3 t hpv (Or.inr hstop)]
                        (try dsimp only)
                        rw [skipWs_append_cons r3 d2 r4 t hsw3]
                        (try dsimp only)
                        rw [if_neg hd2, if_pos hd2b]
                        simp only [Option.some.injEq, Prod.mk.injEq] at h
                        rw [← h.1, ← h.2]
                      · rw [if_neg hd2b] at h
                        exact Option.noConfusion h
            · rw [if_neg hd1] at h
              exact Option.noConfusion h
      · rw [parseMembers_other f c cs2 acc hc] at h
        exact Option.noConfusion h
    · intro cs acc l rest t h
      rw [parseElems_succ] at h
      rw [parseElems_succ]
      rcases hpv : parseVal f cs with _ | ⟨v, r1⟩
      · rw [hpv] at h
        exact Option.noConfusion h
      · rw [hpv] at h
        (try dsimp only at h)
        rcases hcs : cs with _ | ⟨c0, cs2⟩
        · rw [hcs, parseVal_nil_any] at hpv
          exact Option.noConfusion hpv
        · rw [← hcs]
          rcases hsw : skipWs r1 with _ | ⟨d, r2⟩
          · rw [hsw] at h
            exact Option.noConfusion h
          · rw [hsw] at h
            (try dsimp only at h)
            by_cases hd : d = ','
            · rw [if_pos hd] at h
              have hstop : headHardStop r1 = true :=
                headHardStop_of_skipWs r1 d r2 hsw (by rw [hd]; decide)
              rw [ihv cs v r1 t hpv (Or.inr hstop)]
              (try dsimp only)
              rw [skipWs_append_cons r1 d r2 t hsw]
              (try dsimp only)
              rw [if_pos hd]
              rcases hsw2 : skipWs r2 with _ | ⟨e, r3⟩
              · rw [hsw2, parseElems_nil_any] at h
                exact Option.noConfusion h
              · rw [skipWs_append_cons r2 e r3 t hsw2]
                rw [show e :: (r3 ++ t) = (e :: r3) ++ t from rfl, ← hsw2]
                exact ihe (skipWs r2) (acc ++ [v]) l rest t h
            · rw [if_neg hd] at h
              by_cases hdb : d = ']'
              · rw [if_pos hdb] at h
                have hstop : headHardStop r1 = true :=
                  headHardStop_of_skipWs r1 d r2 hsw (by rw [hdb]; decide)
                rw [ihv cs v r1 t hpv (Or.inr hstop)]
                (try dsimp only)
                rw [skipWs_append_cons r1 d r2 t hsw]
                (try dsimp only)
                rw [if_neg hd, if_pos hdb]
                simp only [Option.some.injEq, Prod.mk.injEq] at h
                rw [← h.1, ← h.2]
              · rw [if_neg hdb] at h
                exact Option.noConfusion h

/-- Any larger fuel preserves a successful value parse. -/
theorem parseVal_mono_le (f g : Nat) (hle : f ≤ g) (cs : List Char) (v : Json)
    (rest : List Char) (h : parseVal f cs = some (v, rest)) :
    parseVal g cs = some (v, rest) := by
  induction g, hle using Nat.le_induction with
  | base => exact h
  | succ g hg ih => exact (parse_mono g).1 _ _ _ ih

/-- A list with a non-whitespace character does not skip to nothing. -/
theorem skipWs_ne_nil_of_any (cs : List Char)
    (h : cs.any (fun c => !(isJsonWs c)) = true) : skipWs cs ≠ [] := by
  induction cs with
  | nil => simp at h
  | cons c cs ih =>
    by_cases hc : isJsonWs c
    · rw [show skipWs (c :: cs) = skipWs cs from by simp [skipWs, hc]]
      exact ih (by simpa [hc] using h)
    · rw [show skipWs (c :: cs) = c :: cs from by simp [skipWs, hc]]
      exact List.cons_ne_nil c cs

/-- Appending any text with a non-whitespace character to a string whose
json.loads yields an object makes json.loads fail. -/
theorem jsonLoads_append_none (O s : String) (m : List (String × Json))
    (hO : jsonLoads O = some (.obj m)) (hs : hasNonWs s = true) :
    jsonLoads (O ++ s) = none := by
  rw [jsonLoads] at hO
  rcases hp : parseVal (2 * (skipWs O.data).length + 2) (skipWs O.data)
      with _ | ⟨v, rest⟩
  · rw [hp] at hO
    exact Option.noConfusion hO
  · rw [hp] at hO
    dsimp only at hO
    by_cases hr : skipWs rest = []
    · rw [if_pos hr] at hO
      simp only [Option.some.injEq] at hO
      rw [jsonLoads]
      rw [show (O ++ s).data = O.data ++ s.data from String.data_append O s]
      rcases hsw : skipWs O.data with _ | ⟨d, r⟩
      · rw [hsw, parseVal_nil_any] at hp
        exact Option.noConfusion hp
      · rw [skipWs_append_cons O.data d r s.data hsw]
        rw [show d :: (r ++ s.data) = (d :: r) ++ s.data from rfl, ← hsw]
        have hnum : jIsNum v = false := by
          rw [hO]
          rfl
        have hap := (parse_append (2 * (skipWs O.data).length + 2)).1
          (skipWs O.data) v rest s.data hp (Or.inl hnum)
        have hle : 2 * (skipWs O.data).length + 2 ≤
            2 * (skipWs O.data ++ s.data).length + 2 := by
          simp only [List.length_append]
          omega
        have hap2 := parseVal_mono_le _ _ hle _ _ _ hap
        rw [hap2]
        dsimp only
        rw [skipWs_append_nil rest s.data hr]
        rw [if_neg (skipWs_ne_nil_of_any s.data hs)]
    · rw [if_neg hr] at hO
      exact Option.noConfusion hO

/-- A non-whitespace character anywhere in the right part survives
prepending. -/
theorem hasNonWs_append_right (g x : String) (h : hasNonWs x = true) :
    hasNonWs (g ++ x) = true := by
  rw [hasNonWs] at h ⊢
  rw [String.data_append, List.any_append, h]
  simp

/-- Once the accumulator holds a complete object text (plus possibly some
already-appended residue), lines that all contain a non-whitespace
character and are not the opener can never make it parse again, so the
loop yields nothing further. -/
theorem processLines_stuck (O : String) (m : List (String × Json))
    (hO : jsonLoads O = some (.obj m)) :
    ∀ restL : List String,
      (∀ l ∈ restL, hasNonWs l = true ∧ l ≠ "[\x7b") →
      ∀ g latest, (processLines restL ⟨O ++ g, latest⟩).1 = [] := by
  intro restL
  induction restL with
  | nil =>
    intro _ g latest
    rfl
  | cons line rest ih =>
    intro hlines g latest
    obtain ⟨hnw, hop⟩ := hlines line (List.mem_cons_self line rest)
    have hrest : ∀ l ∈ rest, hasNonWs l = true ∧ l ≠ "[\x7b" :=
      fun l hl => hlines l (List.mem_cons_of_mem line hl)
    rw [processLines]
    have he : ¬line = "" := by
      intro hh
      rw [hh] at hnw
      exact absurd hnw (by decide)
    rw [if_neg he]
    by_cases hcomma : line = ","
    · rw [if_pos hcomma]
      exact ih hrest g latest
    · rw [if_neg hcomma]
      dsimp only
      rw [if_neg hop]
      by_cases hcl : line = "\x7d]"
      · rw [if_pos hcl]
        rw [String.append_assoc]
        rw [jsonLoads_append_none O (g ++ "\x7d") m hO
          (hasNonWs_append_right g "\x7d" (by decide))]
        exact ih hrest (g ++ "\x7d") latest
      · rw [if_neg hcl]
        rw [String.append_assoc]
        rw [jsonLoads_append_none O (g ++ line) m hO
          (hasNonWs_append_right g line hnw)]
        exact ih hrest (g ++ line) latest

/-- C10 (amended): once a complete object whose top level lacks
systemMessage or carries error has been parsed and dispatched with the
generator surviving, the accumulator still holds the complete object
text, and as long as the remaining lines each contain a non-whitespace
character and none is the opener line, no further chunk of any kind is
produced. -/
theorem C10_amended (mm : List (String × Json)) (A : String) (lat : Option Json)
    (restL : List String) (st2 : StreamState) (chunks : List Chunk)
    (hA : jsonLoads A = some (.obj mm))
    (hkind : jLookup mm "systemMessage" = none ∨ jLookup mm "error" ≠ none)
    (hlines : ∀ l ∈ restL, hasNonWs l = true ∧ l ≠ "[\x7b")
    (hgo : dispatch (.obj mm) A lat = .go chunks st2) :
    st2.acc = A ∧ (processLines restL st2).1 = [] := by
  have hst2 : st2 = ⟨A, lat⟩ := by
    rw [dispatch] at hgo
    rw [show pyContains (.obj mm) "error" = .ok (jLookup mm "error").isSome from rfl]
      at hgo
    cases herr : (jLookup mm "error").isSome with
    | true =>
      rw [herr] at hgo
      dsimp only at hgo
      rcases hdo : (do
          let err ← pySubscript (Json.obj mm) "error"
          let c ← pyGetS err "code" .null
          let m2 ← pyGetS err "message" .null
          pure (Chunk.error ("Code: " ++ pyStr c ++ "\nMessage: " ++ pyStr m2))
            : Except PyErr Chunk) with e | c
      · rw [hdo] at hgo
        exact DispatchOut.noConfusion hgo
      · rw [hdo] at hgo
        dsimp only at hgo
        injection hgo with h1 h2
        exact h2.symm
    | false =>
      rw [herr] at hgo
      dsimp only at hgo
      rw [show pyContains (.obj mm) "systemMessage" =
        .ok (jLookup mm "systemMessage").isSome from rfl] at hgo
      cases hsm : (jLookup mm "systemMessage").isSome with
      | false =>
        rw [hsm] at hgo
        dsimp only at hgo
        injection hgo with h1 h2
        exact h2.symm
      | true =>
        rcases hkind with hk | hk
        · rw [hk] at hsm
          exact absurd hsm (by decide)
        · rw [Option.ne_none_iff_isSome] at hk
          rw [hk] at herr
          exact absurd herr (by decide)
  constructor
  · rw [hst2]
  · rw [hst2]
    have := processLines_stuck A mm hA restL hlines "" lat
    rw [show A ++ "" = A from by simp] at this
    exact this

/-- C10 amended witness: the concrete object text of one key parses, is
dispatched without systemMessage, and one further plain line produces no
chunk. -/
theorem C10_amended_witness :
    jsonLoads "\x7b\"a\":1\x7d" = some (.obj [("a", Json.num "1")]) ∧
    (processLines ["x"] ⟨"\x7b\"a\":1\x7d", none⟩).1 = [] :=
  ⟨rfl, (C10_amended [("a", Json.num "1")] "\x7b\"a\":1\x7d" none ["x"]
      ⟨"\x7b\"a\":1\x7d", none⟩ [.apiMessage (.obj [("a", Json.num "1")])]
      rfl (Or.inl rfl) (by decide) rfl).2⟩
